import Mathlib

/-!
# libctrans: transactions and exceptions for plain C

A shallow embedding of `src/trunk/src/libctrans.c` and of the macros
`NEWTRANSACTION` / `ENDTRANSACTION` of `src/libctrans.h`.

* Heap objects of type `Transaction` live in a store indexed by their address.
* The stack is a word-addressed memory (`guint32` cells, addresses in words).
* Calls into glib (`g_free`, `g_list_free`) and the three user handlers are
  recorded, in call order, in a trace.
* `setjmp` / `longjmp` are modelled by the outcome type `Flow`: a function
  either returns, or transfers control to the `setjmp` point of the
  transaction, or ends the process.
-/

namespace Libctrans

set_option linter.unusedVariables false

/-! ## Data model (`libctrans.h`) -/

/-- A heap address (`gpointer`); `0` is `NULL`. -/
abbrev gpointer := Nat

/-- The value `setjmp` returns the first time. -/
def TRANS_START : Nat := 0

/-- The value `ctrans_finish_transaction` passes to `longjmp`. -/
def TRANS_STOP : Nat := 1

/-- The value `ctrans_raise_exception` passes to `longjmp`. -/
def EXCEPTION_CAPTURED : Nat := 2

/-- The enumeration `recipEx_type`. -/
inductive recipEx_type where
  | USER
  | ADMIN
  | IMPLEMENTATION
  deriving DecidableEq, Repr

/-- The integer value of an enumerator of `recipEx_type`. -/
def recipEx_type.val : recipEx_type → Nat
  | .USER => 1100000
  | .ADMIN => 1200000
  | .IMPLEMENTATION => 1300000

/-- The struct `exception_base`. -/
structure exception_base where
  type : Nat
  serial_number : Nat
  parent_serial_number : Nat
  ms_timestamp : Nat
  gthread : Nat
  description_i18n : String
  detail_i18n : String
  deriving DecidableEq, Repr

/-- The struct `recipient_exception`: the base record followed by the solution
text. Both raise functions allocate a block of this type; `solution_i18n` is
`none` while the field has never been written. -/
structure recipient_exception where
  parent : exception_base
  solution_i18n : Option String
  deriving DecidableEq, Repr

/-- The struct `_Transaction`. Pointees that are never shared are held by
value: `stack_backup` is the content of the backup block, `sDebug` the
duplicated string, `raisedException` the record the pointer refers to (`none`
for `NULL`). The header spells the last field `reisedException`; the `.c` file
writes `raisedException`. The `jmp_buf transStart` is the creation point of
the transaction and carries no data here. -/
structure Transaction where
  id : Nat
  stack_ptr2Top : Int
  stack_backup : List Nat
  stack_size : Nat
  sDebug : String
  child_transactions : List gpointer
  allocated_memory : List gpointer
  raisedException : Option recipient_exception
  deriving DecidableEq, Repr

/-- The three handlers bound by `NEWTRANSACTION`. -/
inductive Handler where
  | FUN_START
  | FUN_STOP
  | FUN_EXC
  deriving DecidableEq, Repr

/-- What the environment observes, in order. -/
inductive Event where
  /-- A call `g_free(p)` on a block of user memory. -/
  | g_free (p : gpointer)
  /-- A call of `g_list_free` on a list with the given cells. -/
  | g_list_free (cells : List gpointer)
  /-- A handler is called with `pTrans`; `seen` is `*pTrans` at that moment. -/
  | handler (h : Handler) (pTrans : gpointer) (seen : Transaction)
  /-- The call `g_free(pTrans->stack_backup)` in the macro. -/
  | free_stack_backup (pTrans : gpointer)
  /-- The call `g_free(pTrans->sDebug)` in the macro. -/
  | free_sDebug (pTrans : gpointer)
  /-- The call `g_free(pTrans)` in the macro. -/
  | free_transaction (pTrans : gpointer)
  /-- Client code between library calls, identified by a tag. -/
  | user (tag : Nat)
  deriving DecidableEq, Repr

/-- The state of the process. -/
@[ext]
structure World where
  /-- Heap: the `Transaction` stored at each address. -/
  trans : gpointer → Transaction
  /-- Stack memory, one `guint32` per word address. -/
  stack : Int → Nat
  /-- Calls observed so far, oldest first. -/
  trace : List Event

/-- Outcome of running a piece of code. -/
inductive Flow (α : Type) where
  /-- The function returned `a`. -/
  | ret (a : α) (w : World)
  /-- A `longjmp(pTrans->transStart, val)` was executed. -/
  | longjmp (val : Nat) (w : World)
  /-- The call `exit(code)` was executed. -/
  | exit (code : Nat) (w : World)
  /-- The process was aborted by glib (`g_malloc` of an impossible size). -/
  | abort (w : World)

/-- Sequencing: the continuation runs only when the first part returned. -/
def Flow.bind {α β : Type} (m : Flow α) (k : α → World → Flow β) : Flow β :=
  match m with
  | .ret a w => k a w
  | .longjmp v w => .longjmp v w
  | .exit c w => .exit c w
  | .abort w => .abort w

/-- The world in which a flow ends. -/
def Flow.world {α : Type} : Flow α → World
  | .ret _ w => w
  | .longjmp _ w => w
  | .exit _ w => w
  | .abort w => w

/-- Store `t` at address `p`. -/
def World.setTrans (w : World) (p : gpointer) (t : Transaction) : World :=
  { w with trans := fun q => if q = p then t else w.trans q }

/-- Append an event to the trace. -/
def World.log (w : World) (e : Event) : World :=
  { w with trace := w.trace ++ [e] }

/-- Write one stack word. -/
def World.poke (w : World) (a : Int) (v : Nat) : World :=
  { w with stack := fun b => if b = a then v else w.stack b }

/-! ## glib -/

def g_list_append (l : List gpointer) (data : gpointer) : List gpointer := l ++ [data]

def g_list_prepend (l : List gpointer) (data : gpointer) : List gpointer := data :: l

def g_list_length (l : List gpointer) : Nat := l.length

/-- The data of the `n`-th cell, `NULL` past the end. -/
def g_list_nth_data (l : List gpointer) (n : Nat) : gpointer := l.getD n 0

def g_free (w : World) (p : gpointer) : World := w.log (.g_free p)

def g_list_free (w : World) (l : List gpointer) : World := w.log (.g_list_free l)

/-- The block `g_try_malloc(n_bytes)` returns when the allocator answers
`answer` (`0` when it has no memory): a request of zero bytes yields `NULL`. -/
def g_try_malloc (n_bytes : Nat) (answer : gpointer) : gpointer :=
  if n_bytes = 0 then 0 else answer

/-! ## Machine integers -/

/-- Conversion to `int` (32 bits, two's complement). -/
def to_gint (z : Int) : Int := (z + 2 ^ 31) % 2 ^ 32 - 2 ^ 31

/-- Conversion to `guint` (32 bits). -/
def to_guint (z : Int) : Nat := (z % 2 ^ 32).toNat

/-! ## `libctrans.c` -/

/-- The function `ctrans_backup_Stack(stack_ptr2Top, pTrans, p2Stk)`. A negative
`stack_size` makes `g_malloc` receive a size it cannot serve, and glib aborts. -/
def ctrans_backup_Stack (w : World) (stack_ptr2Top : Int) (pTrans : gpointer)
    (p2Stk : Int) : Flow Unit :=
  let w1 := w.setTrans pTrans { w.trans pTrans with stack_ptr2Top := stack_ptr2Top }
  let stack_size : Int := to_gint ((w1.trans pTrans).stack_ptr2Top - p2Stk)
  if stack_size < 0 then .abort w1
  else
    let w2 := w1.setTrans pTrans { w1.trans pTrans with stack_size := to_guint stack_size }
    let backup := (List.range stack_size.toNat).map
      (fun (idx : Nat) => w2.stack ((w2.trans pTrans).stack_ptr2Top - (idx : Int)))
    .ret () (w2.setTrans pTrans { w2.trans pTrans with stack_backup := backup })

/-- The function `ctrans_restore_Stack(pTrans)`. -/
def ctrans_restore_Stack (w : World) (pTrans : gpointer) : World :=
  (List.range (w.trans pTrans).stack_size).foldl
    (fun (acc : World) (idx : Nat) =>
      acc.poke ((acc.trans pTrans).stack_ptr2Top - (idx : Int))
        ((acc.trans pTrans).stack_backup.getD idx 0))
    w

/-- The function `ctrans_free_resources(pTrans)`. The branch on
`child_transactions` has an empty body in the source, and no field of the
transaction is written: `allocated_memory` keeps pointing to the list after
`g_list_free`. -/
def ctrans_free_resources (w : World) (pTrans : gpointer) : World :=
  if (w.trans pTrans).allocated_memory ≠ [] then
    let listSize := g_list_length (w.trans pTrans).allocated_memory
    let w1 := (List.range listSize).foldl
      (fun acc idx => g_free acc (g_list_nth_data (acc.trans pTrans).allocated_memory idx))
      w
    g_list_free w1 (w1.trans pTrans).allocated_memory
  else w

/-- Words taken by the local `foolArray[100]` of a recursive activation. -/
def foolArray : Nat := 100

/-- The function `ctrans_finish_transaction(pTrans)`; `addr_pTrans` is `&pTrans`, the stack
address of this activation. A recursive activation lies `foolArray` words
deeper. -/
def ctrans_finish_transaction (w : World) (pTrans : gpointer) (addr_pTrans : Int) :
    Flow Unit :=
  if (w.trans pTrans).stack_ptr2Top - (w.trans pTrans).stack_size ≤ addr_pTrans then
    (ctrans_finish_transaction w pTrans (addr_pTrans - foolArray)).bind
      (fun _ w1 => .ret () w1)
  else
    .longjmp TRANS_STOP (ctrans_restore_Stack w pTrans)
termination_by
  (addr_pTrans - ((w.trans pTrans).stack_ptr2Top - (w.trans pTrans).stack_size) + 1).toNat
decreasing_by
  simp only [foolArray]
  omega

/-- The function `ctrans_raise_exception(pTrans, exception)`; `addr_pTrans` is `&pTrans`. -/
def ctrans_raise_exception (w : World) (pTrans : gpointer)
    (exception : recipient_exception) (addr_pTrans : Int) : Flow Unit :=
  if (w.trans pTrans).stack_ptr2Top - (w.trans pTrans).stack_size ≤ addr_pTrans then
    (ctrans_raise_exception w pTrans exception (addr_pTrans - foolArray)).bind
      (fun _ w1 => .ret () w1)
  else
    let w1 := ctrans_restore_Stack w pTrans
    let w2 := w1.setTrans pTrans { w1.trans pTrans with raisedException := some exception }
    .longjmp EXCEPTION_CAPTURED w2
termination_by
  (addr_pTrans - ((w.trans pTrans).stack_ptr2Top - (w.trans pTrans).stack_size) + 1).toNat
decreasing_by
  simp only [foolArray]
  omega

/-- The function `ctrans_raise_sender_exception(pTrans, type,
description_i18n, detail_i18n)`. -/
def ctrans_raise_sender_exception (w : World) (pTrans : gpointer) (type : Nat)
    (description_i18n detail_i18n : String) (sp : Int) : Flow Unit :=
  let re : recipient_exception :=
    { parent :=
        { type := type
          serial_number := 0
          parent_serial_number := 0
          ms_timestamp := 0
          description_i18n := description_i18n
          detail_i18n := description_i18n
          gthread := 0 }
      solution_i18n := none }
  ctrans_raise_exception w pTrans re sp

/-- The function `ctrans_raise_recipient_exception(pTrans, type, description_i18n,
detail_i18n, solution_i18n)`. -/
def ctrans_raise_recipient_exception (w : World) (pTrans : gpointer) (type : recipEx_type)
    (description_i18n detail_i18n solution_i18n : String) (sp : Int) : Flow Unit :=
  let re : recipient_exception :=
    { parent :=
        { type := type.val
          serial_number := 0
          parent_serial_number := 0
          ms_timestamp := 0
          description_i18n := description_i18n
          detail_i18n := description_i18n
          gthread := 0 }
      solution_i18n := some solution_i18n }
  ctrans_raise_exception w pTrans re sp

/-- The function `ctrans_try_malloc(pTrans, n_bytes, bRaiseException)`, where `answer` is
what the allocator has to offer for this request. -/
def ctrans_try_malloc (w : World) (pTrans : gpointer) (n_bytes : Nat)
    (bRaiseException : Bool) (answer : gpointer) (sp : Int) : Flow gpointer :=
  let result := g_try_malloc n_bytes answer
  let record : Unit → World → Flow gpointer := fun _ w1 =>
    .ret result
      (w1.setTrans pTrans
        { w1.trans pTrans with
          allocated_memory := g_list_append (w1.trans pTrans).allocated_memory result })
  if result = 0 then
    if bRaiseException = false then .ret 0 w
    else
      (ctrans_raise_sender_exception w pTrans 1
        "g_try_malloc failed @ ctrans_try_malloc" "" sp).bind record
  else record () w

/-- Lines 81-87 of `ctrans_new_transaction`: what follows `setjmp` once it has
returned `result`, on its first return and on every later one. -/
def ctrans_new_transaction_resume (w : World) (pTrans : gpointer) (result : Nat) :
    Flow Nat :=
  if result = TRANS_STOP ∨ result = EXCEPTION_CAPTURED then
    .ret result (ctrans_free_resources w pTrans)
  else .ret result w

/-- The function `ctrans_new_transaction(stack_ptr2Top, ppTrans, pParentTrans, sDebug)` up to
its first return. `newTrans` is the block `g_malloc(sizeof(Transaction))`
returned (stored in `*ppTrans`), `p2Stk` is `&ptr2stackBotton`. -/
def ctrans_new_transaction (w : World) (stack_ptr2Top : Int) (newTrans : gpointer)
    (pParentTrans : gpointer) (sDebug : Option String) (p2Stk : Int) : Flow Nat :=
  if newTrans = 0 then .exit 1 w
  else
    (ctrans_backup_Stack w stack_ptr2Top newTrans p2Stk).bind fun _ w1 =>
      let w2 := w1.setTrans newTrans { w1.trans newTrans with allocated_memory := [] }
      let w3 := w2.setTrans newTrans { w2.trans newTrans with child_transactions := [] }
      let w4 :=
        if pParentTrans ≠ 0 then
          w3.setTrans pParentTrans
            { w3.trans pParentTrans with
              child_transactions :=
                g_list_prepend (w3.trans pParentTrans).child_transactions newTrans }
        else w3
      let w5 :=
        match sDebug with
        | none => w4.setTrans newTrans { w4.trans newTrans with sDebug := "" }
        | some s => w4.setTrans newTrans { w4.trans newTrans with sDebug := s }
      ctrans_new_transaction_resume w5 newTrans TRANS_START

/-! ## The macros of `libctrans.h` -/

/-- The three frees that follow a handler in `NEWTRANSACTION`. -/
def NEWTRANSACTION_free (w : World) (pTrans : gpointer) : World :=
  ((w.log (.free_stack_backup pTrans)).log (.free_sDebug pTrans)).log
    (.free_transaction pTrans)

/-- The conditional of `NEWTRANSACTION` on `tranState`. The flag tells whether
the branch ends in `goto ENDTRANS`. -/
def NEWTRANSACTION (w : World) (pTrans : gpointer) (tranState : Nat) : World × Bool :=
  if tranState = EXCEPTION_CAPTURED then
    (NEWTRANSACTION_free (w.log (.handler .FUN_EXC pTrans (w.trans pTrans))) pTrans, true)
  else if tranState = TRANS_STOP then
    (NEWTRANSACTION_free (w.log (.handler .FUN_STOP pTrans (w.trans pTrans))) pTrans, true)
  else
    (w.log (.handler .FUN_START pTrans (w.trans pTrans)), false)

/-- The macro `ENDTRANSACTION(pTrans)`, reached by falling through the body. -/
def ENDTRANSACTION (w : World) (pTrans : gpointer) (sp : Int) : Flow Unit :=
  ctrans_finish_transaction w pTrans sp

/-! ## Client code -/

/-- One step of client code running inside a transaction. -/
inductive Op where
  /-- Enter a function whose frame takes `frame` words. -/
  | call (frame : Nat)
  /-- Leave a function whose frame took `frame` words. -/
  | leave (frame : Nat)
  /-- Client code of its own, with a visible effect. -/
  | user (tag : Nat)
  | try_malloc (n_bytes : Nat) (bRaiseException : Bool) (answer : gpointer)
  | raise_sender (type : Nat) (description_i18n detail_i18n : String)
  | raise_recipient (type : recipEx_type)
      (description_i18n detail_i18n solution_i18n : String)
  | finish
  deriving DecidableEq, Repr

/-- Run one step on transaction `pTrans` with the stack pointer at `sp`. -/
def step (pTrans : gpointer) (op : Op) (sp : Int) (w : World) : Flow Int :=
  match op with
  | .call frame => .ret (sp - frame) w
  | .leave frame => .ret (sp + frame) w
  | .user tag => .ret sp (w.log (.user tag))
  | .try_malloc n_bytes b answer =>
      (ctrans_try_malloc w pTrans n_bytes b answer sp).bind fun _ w1 => .ret sp w1
  | .raise_sender type d e =>
      (ctrans_raise_sender_exception w pTrans type d e sp).bind fun _ w1 => .ret sp w1
  | .raise_recipient type d e s =>
      (ctrans_raise_recipient_exception w pTrans type d e s sp).bind fun _ w1 => .ret sp w1
  | .finish =>
      (ctrans_finish_transaction w pTrans sp).bind fun _ w1 => .ret sp w1

/-- Run client code: the steps in order, as long as each of them returns. -/
def exec (pTrans : gpointer) : List Op → Int → World → Flow Int
  | [], sp, w => .ret sp w
  | op :: rest, sp, w => (step pTrans op sp w).bind fun sp1 w1 => exec pTrans rest sp1 w1

/-- Control is back at the `setjmp` of `ctrans_new_transaction` with value
`val`: the function returns a second time and the conditional of
`NEWTRANSACTION` is evaluated again (it ends in `goto ENDTRANS` for both
values a `longjmp` of this library carries, see `NEWTRANSACTION_goto`). -/
def creation_point (w : World) (pTrans : gpointer) (val : Nat) : Flow Unit :=
  (ctrans_new_transaction_resume w pTrans val).bind fun tranState w1 =>
    .ret () (NEWTRANSACTION w1 pTrans tranState).1

/-- The code `NEWTRANSACTION(p, ...); body; ENDTRANSACTION(p);` in a function
whose local `stackTop` lies at `stackTop`. `newTrans` and `p2Stk` are as in
`ctrans_new_transaction`, `sDebug` is the label. -/
def transaction (w : World) (stackTop : Int) (newTrans : gpointer)
    (sDebug : Option String) (p2Stk : Int) (body : List Op) : Flow Unit :=
  (ctrans_new_transaction w stackTop newTrans 0 sDebug p2Stk).bind fun tranState w1 =>
    let r := NEWTRANSACTION w1 newTrans tranState
    if r.2 then .ret () r.1
    else
      match (exec newTrans body stackTop r.1).bind
          (fun _ w2 => ENDTRANSACTION w2 newTrans stackTop) with
      | .ret _ w3 => .ret () w3
      | .longjmp val w3 => creation_point w3 newTrans val
      | .exit c w3 => .exit c w3
      | .abort w3 => .abort w3

/-! ## Reading a trace -/

/-- The blocks passed to `g_free`, in call order. -/
def released : List Event → List gpointer
  | [] => []
  | .g_free p :: es => p :: released es
  | _ :: es => released es

/-- The handlers called, in call order. -/
def handlers : List Event → List Handler
  | [] => []
  | .handler h _ _ :: es => h :: handlers es
  | _ :: es => handlers es

/-- The tags of the client code that ran, in order. -/
def userTags : List Event → List Nat
  | [] => []
  | .user tag :: es => tag :: userTags es
  | _ :: es => userTags es

/-- What the handler `h` saw at each of its calls. -/
def seenBy (h : Handler) : List Event → List Transaction
  | [] => []
  | .handler h1 _ t :: es => if h1 = h then t :: seenBy h es else seenBy h es
  | _ :: es => seenBy h es

/-! ## Vocabulary of the statements -/

/-- The world a raise of `e` on `p` jumps with: the stack restored from the
backup and the record attached to the transaction. -/
def raised (w : World) (p : gpointer) (e : recipient_exception) : World :=
  (ctrans_restore_Stack w p).setTrans p
    { (ctrans_restore_Stack w p).trans p with raisedException := some e }

/-- What `ctrans_free_resources` adds to the trace for the list `am`. -/
def teardown_events (am : List gpointer) : List Event :=
  if am = [] then [] else am.map Event.g_free ++ [Event.g_list_free am]

/-- The step is client code, a call, a return, or a tracked allocation that
does not raise: the allocation succeeds, or fails in soft mode. -/
def Op.quiet : Op → Bool
  | .call _ => true
  | .leave _ => true
  | .user _ => true
  | .try_malloc n_bytes b answer => g_try_malloc n_bytes answer != 0 || !b
  | _ => false

/-- The step is client code, a call, a return, or a tracked allocation that
succeeds. -/
def Op.acquiring : Op → Bool
  | .call _ => true
  | .leave _ => true
  | .user _ => true
  | .try_malloc n_bytes _ answer => g_try_malloc n_bytes answer != 0
  | _ => false

/-- The step is a call of one of the two raise functions. -/
def Op.raising : Op → Bool
  | .raise_sender _ _ _ => true
  | .raise_recipient _ _ _ _ => true
  | _ => false

/-- The handles the successful tracked allocations of the code return, in
program order. -/
def acquired : List Op → List gpointer
  | [] => []
  | .try_malloc n_bytes _ answer :: ops =>
      if g_try_malloc n_bytes answer = 0 then acquired ops
      else g_try_malloc n_bytes answer :: acquired ops
  | _ :: ops => acquired ops

/-- The tags of the client steps of the code, in program order. -/
def tagsOf : List Op → List Nat
  | [] => []
  | .user tag :: ops => tag :: tagsOf ops
  | _ :: ops => tagsOf ops

/-- The stack pointer after the calls and returns of the code. -/
def spAfter : List Op → Int → Int
  | [], sp => sp
  | .call frame :: ops, sp => spAfter ops (sp - frame)
  | .leave frame :: ops, sp => spAfter ops (sp + frame)
  | _ :: ops, sp => spAfter ops sp

/-- The world after transaction `p` recorded the handles `hs` and client code
with the tags `tags` ran. -/
def grow (w : World) (p : gpointer) (hs : List gpointer) (tags : List Nat) : World :=
  { trans := fun q =>
      if q = p then
        { w.trans p with allocated_memory := (w.trans p).allocated_memory ++ hs }
      else w.trans q
    stack := w.stack
    trace := w.trace ++ tags.map Event.user }

/-- The transaction `ctrans_new_transaction` leaves at `c` on its first return:
`id` and `raisedException` keep what the block held, every other field is
written. -/
def created (w : World) (stackTop : Int) (c : gpointer) (sDebug : Option String)
    (p2Stk : Int) : Transaction :=
  { id := (w.trans c).id
    stack_ptr2Top := stackTop
    stack_backup := (List.range (to_gint (stackTop - p2Stk)).toNat).map
      (fun (idx : Nat) => w.stack (stackTop - (idx : Int)))
    stack_size := to_guint (to_gint (stackTop - p2Stk))
    sDebug := sDebug.getD ""
    child_transactions := []
    allocated_memory := []
    raisedException := (w.trans c).raisedException }

/-- The world in which the body of a transaction starts: the context is
created and `FUN_START` has been called. -/
def started (w : World) (stackTop : Int) (c : gpointer) (sDebug : Option String)
    (p2Stk : Int) : World :=
  (w.setTrans c (created w stackTop c sDebug p2Stk)).log
    (.handler .FUN_START c (created w stackTop c sDebug p2Stk))

/-! ## Sample inputs -/

/-- A block of memory nothing has been written to yet. -/
def blank : Transaction :=
  { id := 0
    stack_ptr2Top := 0
    stack_backup := []
    stack_size := 0
    sDebug := ""
    child_transactions := []
    allocated_memory := []
    raisedException := none }

/-- A process that has not called the library yet. -/
def world0 : World :=
  { trans := fun _ => blank
    stack := fun _ => 0
    trace := [] }

/-- The body of `main` in `test1.c`: `action1`, then `action2`, `subAction`
and `subSubAction`, each with one tracked allocation, then the raise; the
returns behind the raise are there as dead code. -/
def test1_body : List Op :=
  [.call 4, .try_malloc 1000 true 11, .leave 4,
   .call 4, .try_malloc 1000 true 12,
   .call 4, .try_malloc 1000 true 13,
   .call 4, .try_malloc 1000 true 14,
   .raise_recipient .USER "description" "detail" "solution",
   .leave 4, .leave 4, .leave 4]

/-! ## Several transactions -/

/-- One pass through the loop of `run_main_loop` in `test2.c`: the block
`g_malloc` hands out for the context, the label, and the code between the two
macros. -/
structure Run where
  newTrans : gpointer
  sDebug : Option String
  body : List Op

/-- The loop of `run_main_loop` in `test2.c`, for as many passes as the list
has entries: each pass is `NEWTRANSACTION(...); body; ENDTRANSACTION(...)`, and
the next pass starts when the former one has reached the code behind
`ENDTRANSACTION`. -/
def run_main_loop (stackTop : Int) (p2Stk : Int) : List Run → World → Flow Unit
  | [], w => .ret () w
  | r :: rs, w =>
      (transaction w stackTop r.newTrans r.sDebug p2Stk r.body).bind
        fun _ w1 => run_main_loop stackTop p2Stk rs w1

/-- The code `NEWTRANSACTION(c, ...); body; ENDTRANSACTION(c);` with
`pParentTrans` passed to `ctrans_new_transaction` where the macro passes `0`:
the life of a transaction created under a parent. -/
def child_transaction (w : World) (stackTop : Int) (newTrans : gpointer)
    (pParentTrans : gpointer) (sDebug : Option String) (p2Stk : Int) (body : List Op) :
    Flow Unit :=
  (ctrans_new_transaction w stackTop newTrans pParentTrans sDebug p2Stk).bind
    fun tranState w1 =>
      let r := NEWTRANSACTION w1 newTrans tranState
      if r.2 then .ret () r.1
      else
        match (exec newTrans body stackTop r.1).bind
            (fun _ w2 => ENDTRANSACTION w2 newTrans stackTop) with
        | .ret _ w3 => .ret () w3
        | .longjmp val w3 => creation_point w3 newTrans val
        | .exit c w3 => .exit c w3
        | .abort w3 => .abort w3

/-- The contexts passed to `g_free` by the macro, in call order. -/
def deallocated : List Event → List gpointer
  | [] => []
  | .free_transaction p :: es => p :: deallocated es
  | _ :: es => deallocated es

/-- The lists passed to `g_list_free`, in call order. -/
def freedLists : List Event → List (List gpointer)
  | [] => []
  | .g_list_free l :: es => l :: freedLists es
  | _ :: es => freedLists es

/-- The handlers called with the transaction `p`, in call order. -/
def handlersOf (p : gpointer) : List Event → List Handler
  | [] => []
  | .handler h q _ :: es => if q = p then h :: handlersOf p es else handlersOf p es
  | _ :: es => handlersOf p es

/-- The body of the transaction `c` followed by `ENDTRANSACTION`, run from the
world `w` with the stack pointer at `stackTop`. -/
def body_flow (w : World) (c : gpointer) (stackTop : Int) (body : List Op) : Flow Unit :=
  (exec c body stackTop w).bind fun _ w2 => ENDTRANSACTION w2 c stackTop

/-- The world in which the body of a transaction created under `parent`
starts. -/
def started_under (w : World) (stackTop : Int) (c parent : gpointer)
    (sDebug : Option String) (p2Stk : Int) : World :=
  ((w.setTrans c (created w stackTop c sDebug p2Stk)).setTrans parent
      { w.trans parent with
        child_transactions := c :: (w.trans parent).child_transactions }).log
    (.handler .FUN_START c (created w stackTop c sDebug p2Stk))

/-- What follows the flow of the body: a `longjmp` brings control back to the
creation point, anything else is passed on. -/
def resume (c : gpointer) : Flow Unit → Flow Unit
  | .ret _ w3 => .ret () w3
  | .longjmp val w3 => creation_point w3 c val
  | .exit code w3 => .exit code w3
  | .abort w3 => .abort w3

/-- The handles acquired in the passes of the loop, in order. -/
def acquired_all : List Run → List gpointer
  | [] => []
  | r :: rs => acquired r.body ++ acquired_all rs

/-- The blocks passed to `g_free` before the first call of the handler `h`. -/
def releasedBeforeHandler (h : Handler) : List Event → List gpointer
  | [] => []
  | .handler h1 _ _ :: es => if h1 = h then [] else releasedBeforeHandler h es
  | .g_free p :: es => p :: releasedBeforeHandler h es
  | _ :: es => releasedBeforeHandler h es

/-- Two passes of the loop of `test2.c`, cut down to two tracked allocations
each, on contexts at the addresses 5 and 6. -/
def two_runs : List Run :=
  [{ newTrans := 5, sDebug := some "Trans1",
     body := [.call 4, .try_malloc 1000 true 11, .leave 4, .call 4,
              .try_malloc 1000 true 12, .leave 4] },
   { newTrans := 6, sDebug := some "Trans1",
     body := [.call 4, .try_malloc 1000 true 11, .leave 4, .call 4,
              .try_malloc 1000 true 13, .leave 4] }]

/-- A parent transaction at address 7 that recorded the handle 11 and has one
child, at address 5, that recorded the handle 21. -/
def family : World :=
  (world0.setTrans 7 { blank with child_transactions := [5], allocated_memory := [11] }).setTrans
    5 { blank with allocated_memory := [21] }

/-- A record left in a transaction by an earlier raise. -/
def pending : recipient_exception :=
  { parent :=
      { type := 2000000
        serial_number := 0
        parent_serial_number := 0
        ms_timestamp := 0
        gthread := 0
        description_i18n := "first"
        detail_i18n := "first" }
    solution_i18n := none }

/-- A process whose stack word at the address `a` holds the number `a`. -/
def numbered : World :=
  { trans := fun _ => blank
    stack := fun a => a.toNat
    trace := [] }

section Basics

@[simp]
theorem setTrans_trans_self (w : World) (p : gpointer) (t : Transaction) :
    (w.setTrans p t).trans p = t := by
  simp [World.setTrans]

theorem setTrans_trans_other (w : World) (p q : gpointer) (t : Transaction) (h : q ≠ p) :
    (w.setTrans p t).trans q = w.trans q := by
  simp [World.setTrans, h]

@[simp]
theorem setTrans_stack (w : World) (p : gpointer) (t : Transaction) :
    (w.setTrans p t).stack = w.stack := rfl

@[simp]
theorem setTrans_trace (w : World) (p : gpointer) (t : Transaction) :
    (w.setTrans p t).trace = w.trace := rfl

@[simp]
theorem setTrans_setTrans (w : World) (p : gpointer) (t u : Transaction) :
    (w.setTrans p t).setTrans p u = w.setTrans p u := by
  ext q
  · simp only [World.setTrans]
    split <;> rfl
  · rfl
  · rfl

@[simp]
theorem log_trans (w : World) (e : Event) : (w.log e).trans = w.trans := rfl

@[simp]
theorem log_stack (w : World) (e : Event) : (w.log e).stack = w.stack := rfl

@[simp]
theorem log_trace (w : World) (e : Event) : (w.log e).trace = w.trace ++ [e] := rfl

@[simp]
theorem poke_trans (w : World) (a : Int) (v : Nat) : (w.poke a v).trans = w.trans := rfl

@[simp]
theorem poke_trace (w : World) (a : Int) (v : Nat) : (w.poke a v).trace = w.trace := rfl

@[simp]
theorem released_append (a b : List Event) :
    released (a ++ b) = released a ++ released b := by
  induction a with
  | nil => rfl
  | cons e es ih => cases e <;> simp [released, ih]

@[simp]
theorem handlers_append (a b : List Event) :
    handlers (a ++ b) = handlers a ++ handlers b := by
  induction a with
  | nil => rfl
  | cons e es ih => cases e <;> simp [handlers, ih]

@[simp]
theorem userTags_append (a b : List Event) :
    userTags (a ++ b) = userTags a ++ userTags b := by
  induction a with
  | nil => rfl
  | cons e es ih => cases e <;> simp [userTags, ih]

@[simp]
theorem seenBy_append (h : Handler) (a b : List Event) :
    seenBy h (a ++ b) = seenBy h a ++ seenBy h b := by
  induction a with
  | nil => rfl
  | cons e es ih =>
    cases e <;> simp [seenBy, ih]
    split <;> simp

@[simp]
theorem released_map_g_free (l : List gpointer) :
    released (l.map Event.g_free) = l := by
  induction l with
  | nil => rfl
  | cons x xs ih => simp [released, ih]

@[simp]
theorem handlers_map_g_free (l : List gpointer) :
    handlers (l.map Event.g_free) = [] := by
  induction l with
  | nil => rfl
  | cons x xs ih => simp [handlers, ih]

@[simp]
theorem userTags_map_g_free (l : List gpointer) :
    userTags (l.map Event.g_free) = [] := by
  induction l with
  | nil => rfl
  | cons x xs ih => simp [userTags, ih]

@[simp]
theorem seenBy_map_g_free (h : Handler) (l : List gpointer) :
    seenBy h (l.map Event.g_free) = [] := by
  induction l with
  | nil => rfl
  | cons x xs ih => simp [seenBy, ih]

@[simp]
theorem released_map_user (l : List Nat) : released (l.map Event.user) = [] := by
  induction l with
  | nil => rfl
  | cons x xs ih => simp [released, ih]

@[simp]
theorem handlers_map_user (l : List Nat) : handlers (l.map Event.user) = [] := by
  induction l with
  | nil => rfl
  | cons x xs ih => simp [handlers, ih]

@[simp]
theorem userTags_map_user (l : List Nat) : userTags (l.map Event.user) = l := by
  induction l with
  | nil => rfl
  | cons x xs ih => simp [userTags, ih]

@[simp]
theorem seenBy_map_user (h : Handler) (l : List Nat) : seenBy h (l.map Event.user) = [] := by
  induction l with
  | nil => rfl
  | cons x xs ih => simp [seenBy, ih]

/-- The restore loop writes stack words only. -/
theorem restore_loop_trans (p : gpointer) (l : List Nat) (w : World) :
    (l.foldl (fun (acc : World) (idx : Nat) =>
        acc.poke ((acc.trans p).stack_ptr2Top - (idx : Int))
          ((acc.trans p).stack_backup.getD idx 0)) w).trans = w.trans ∧
    (l.foldl (fun (acc : World) (idx : Nat) =>
        acc.poke ((acc.trans p).stack_ptr2Top - (idx : Int))
          ((acc.trans p).stack_backup.getD idx 0)) w).trace = w.trace := by
  induction l generalizing w with
  | nil => exact ⟨rfl, rfl⟩
  | cons i is ih =>
    simp only [List.foldl_cons]
    exact ⟨(ih _).1.trans (poke_trans _ _ _), (ih _).2.trans (poke_trace _ _ _)⟩

@[simp]
theorem restore_trans (w : World) (p : gpointer) :
    (ctrans_restore_Stack w p).trans = w.trans :=
  (restore_loop_trans p _ w).1

@[simp]
theorem restore_trace (w : World) (p : gpointer) :
    (ctrans_restore_Stack w p).trace = w.trace :=
  (restore_loop_trans p _ w).2

/-- The depth guard of `ctrans_raise_exception` ends, and the function then
leaves through `longjmp` with `EXCEPTION_CAPTURED`. -/
theorem raise_exception_eq (w : World) (p : gpointer) (e : recipient_exception) (sp : Int) :
    ctrans_raise_exception w p e sp = .longjmp EXCEPTION_CAPTURED (raised w p e) := by
  generalize hn :
    (sp - ((w.trans p).stack_ptr2Top - (w.trans p).stack_size) + 1).toNat = n
  induction n using Nat.strong_induction_on generalizing sp with
  | _ n ih =>
    rw [ctrans_raise_exception]
    split
    · rw [ih _ (by subst hn; simp only [foolArray]; omega) _ rfl]
      rfl
    · rfl

/-- The depth guard of `ctrans_finish_transaction` ends, and the function then
leaves through `longjmp` with `TRANS_STOP`. -/
theorem finish_transaction_eq (w : World) (p : gpointer) (sp : Int) :
    ctrans_finish_transaction w p sp = .longjmp TRANS_STOP (ctrans_restore_Stack w p) := by
  generalize hn :
    (sp - ((w.trans p).stack_ptr2Top - (w.trans p).stack_size) + 1).toNat = n
  induction n using Nat.strong_induction_on generalizing sp with
  | _ n ih =>
    rw [ctrans_finish_transaction]
    split
    · rw [ih _ (by subst hn; simp only [foolArray]; omega) _ rfl]
      rfl
    · rfl

end Basics

section Teardown

/-- The loop of `ctrans_free_resources` over the indices `is`. -/
theorem free_loop_eq (p : gpointer) (is : List Nat) (w : World) :
    is.foldl
        (fun acc idx => g_free acc (g_list_nth_data (acc.trans p).allocated_memory idx)) w =
      { w with
        trace := w.trace ++
          is.map (fun idx => Event.g_free ((w.trans p).allocated_memory.getD idx 0)) } := by
  induction is generalizing w with
  | nil => simp
  | cons i is ih =>
    rw [List.foldl_cons, ih]
    simp [g_free, g_list_nth_data, World.log]

theorem map_getD_range (l : List gpointer) :
    (List.range l.length).map (fun idx => Event.g_free (l.getD idx 0)) =
      l.map Event.g_free := by
  apply List.ext_getElem
  · simp
  · intro i h1 h2
    simp at h1
    simp [List.getD_eq_getElem _ _ h1, List.getElem?_eq_getElem h1]

/-- The whole effect of `ctrans_free_resources`: the blocks of
`allocated_memory` go to `g_free` in list order, then the list is freed; the
transaction itself is not written. -/
theorem free_resources_eq (w : World) (p : gpointer) :
    ctrans_free_resources w p =
      { w with trace := w.trace ++ teardown_events (w.trans p).allocated_memory } := by
  unfold ctrans_free_resources teardown_events
  by_cases h : (w.trans p).allocated_memory = []
  · simp [h]
  · simp only [h, ne_eq, not_false_eq_true, if_true, if_false, g_list_length]
    rw [free_loop_eq, map_getD_range]
    simp [g_list_free, World.log]

@[simp]
theorem free_resources_trans (w : World) (p : gpointer) :
    (ctrans_free_resources w p).trans = w.trans := by
  rw [free_resources_eq]

@[simp]
theorem free_resources_stack (w : World) (p : gpointer) :
    (ctrans_free_resources w p).stack = w.stack := by
  rw [free_resources_eq]

@[simp]
theorem free_resources_trace (w : World) (p : gpointer) :
    (ctrans_free_resources w p).trace =
      w.trace ++ teardown_events (w.trans p).allocated_memory := by
  rw [free_resources_eq]

@[simp]
theorem released_teardown_events (am : List gpointer) :
    released (teardown_events am) = am := by
  unfold teardown_events
  split
  · simp_all [released]
  · simp [released]

@[simp]
theorem handlers_teardown_events (am : List gpointer) :
    handlers (teardown_events am) = [] := by
  unfold teardown_events
  split <;> simp [handlers]

@[simp]
theorem userTags_teardown_events (am : List gpointer) :
    userTags (teardown_events am) = [] := by
  unfold teardown_events
  split <;> simp [userTags]

@[simp]
theorem seenBy_teardown_events (h : Handler) (am : List gpointer) :
    seenBy h (teardown_events am) = [] := by
  unfold teardown_events
  split <;> simp [seenBy]

end Teardown

section ClientCode

theorem grow_nil (w : World) (p : gpointer) : grow w p [] [] = w := by
  ext q
  · simp only [grow, List.append_nil]
    split
    · next h => rw [h]
    · rfl
  · rfl
  · simp [grow]

theorem grow_grow (w : World) (p : gpointer) (h1 h2 : List gpointer) (t1 t2 : List Nat) :
    grow (grow w p h1 t1) p h2 t2 = grow w p (h1 ++ h2) (t1 ++ t2) := by
  ext q
  · simp only [grow, if_true, List.append_assoc]
    split <;> rfl
  · rfl
  · simp [grow]

@[simp]
theorem grow_trace (w : World) (p : gpointer) (hs : List gpointer) (tags : List Nat) :
    (grow w p hs tags).trace = w.trace ++ tags.map Event.user := rfl

@[simp]
theorem grow_stack (w : World) (p : gpointer) (hs : List gpointer) (tags : List Nat) :
    (grow w p hs tags).stack = w.stack := rfl

@[simp]
theorem grow_trans_self (w : World) (p : gpointer) (hs : List gpointer) (tags : List Nat) :
    (grow w p hs tags).trans p =
      { w.trans p with allocated_memory := (w.trans p).allocated_memory ++ hs } := by
  simp [grow]

theorem grow_trans_other (w : World) (p q : gpointer) (hs : List gpointer) (tags : List Nat)
    (h : q ≠ p) : (grow w p hs tags).trans q = w.trans q := by
  simp [grow, h]

theorem log_user_eq_grow (w : World) (p : gpointer) (tag : Nat) :
    w.log (.user tag) = grow w p [] [tag] := by
  ext q
  · simp only [grow, List.append_nil, log_trans]
    split
    · next h => rw [h]
    · rfl
  · rfl
  · simp [grow]

theorem record_eq_grow (w : World) (p : gpointer) (h : gpointer) :
    w.setTrans p
        { w.trans p with allocated_memory := g_list_append (w.trans p).allocated_memory h } =
      grow w p [h] [] := by
  ext q
  · simp only [grow, World.setTrans, g_list_append]
  · rfl
  · simp [grow]

/-- A tracked allocation that succeeds returns the block and records it. -/
theorem try_malloc_success (w : World) (p : gpointer) (n_bytes : Nat) (b : Bool)
    (answer : gpointer) (sp : Int) (h : g_try_malloc n_bytes answer ≠ 0) :
    ctrans_try_malloc w p n_bytes b answer sp =
      .ret (g_try_malloc n_bytes answer) (grow w p [g_try_malloc n_bytes answer] []) := by
  simp only [ctrans_try_malloc, h, if_false, record_eq_grow]

/-- A tracked allocation that fails in soft mode returns `NULL` and changes
nothing. -/
theorem try_malloc_soft (w : World) (p : gpointer) (n_bytes : Nat)
    (answer : gpointer) (sp : Int) (h : g_try_malloc n_bytes answer = 0) :
    ctrans_try_malloc w p n_bytes false answer sp = .ret 0 w := by
  simp [ctrans_try_malloc, h]

/-- A quiet step returns. -/
theorem step_quiet (p : gpointer) (op : Op) (sp : Int) (w : World) (h : op.quiet = true) :
    step p op sp w = .ret (spAfter [op] sp) (grow w p (acquired [op]) (tagsOf [op])) := by
  cases op with
  | call frame => simp [step, spAfter, acquired, tagsOf, grow_nil]
  | leave frame => simp [step, spAfter, acquired, tagsOf, grow_nil]
  | user tag => simp [step, spAfter, acquired, tagsOf, log_user_eq_grow w p]
  | try_malloc n_bytes b answer =>
    by_cases hr : g_try_malloc n_bytes answer = 0
    · have hb : b = false := by simpa [Op.quiet, hr] using h
      subst hb
      simp [step, try_malloc_soft _ _ _ _ _ hr, Flow.bind, spAfter, acquired, tagsOf, hr,
        grow_nil]
    · simp [step, try_malloc_success _ _ _ _ _ _ hr, Flow.bind, spAfter, acquired, tagsOf, hr]
  | raise_sender _ _ _ => simp [Op.quiet] at h
  | raise_recipient _ _ _ _ => simp [Op.quiet] at h
  | finish => simp [Op.quiet] at h

theorem acquired_cons (op : Op) (ops : List Op) :
    acquired (op :: ops) = acquired [op] ++ acquired ops := by
  cases op <;> simp [acquired]
  split <;> simp

theorem tagsOf_cons (op : Op) (ops : List Op) :
    tagsOf (op :: ops) = tagsOf [op] ++ tagsOf ops := by
  cases op <;> simp [tagsOf]

theorem spAfter_cons (op : Op) (ops : List Op) (sp : Int) :
    spAfter (op :: ops) sp = spAfter ops (spAfter [op] sp) := by
  cases op <;> simp [spAfter]

/-- Quiet code returns, with its handles recorded in order. -/
theorem exec_quiet (p : gpointer) (ops : List Op) (sp : Int) (w : World)
    (h : ∀ op ∈ ops, op.quiet = true) :
    exec p ops sp w = .ret (spAfter ops sp) (grow w p (acquired ops) (tagsOf ops)) := by
  induction ops generalizing sp w with
  | nil => simp [exec, spAfter, acquired, tagsOf, grow_nil]
  | cons op ops ih =>
    rw [exec, step_quiet p op sp w (h op (List.mem_cons_self _ _))]
    simp only [Flow.bind]
    rw [ih _ _ (fun o ho => h o (List.mem_cons_of_mem _ ho)), grow_grow,
      ← acquired_cons, ← tagsOf_cons, ← spAfter_cons]

/-- Code after a step that does not return does not run. -/
theorem exec_append (p : gpointer) (a b : List Op) (sp : Int) (w : World) :
    exec p (a ++ b) sp w = (exec p a sp w).bind (fun sp1 w1 => exec p b sp1 w1) := by
  induction a generalizing sp w with
  | nil => simp [exec, Flow.bind]
  | cons op a ih =>
    simp only [List.cons_append, exec]
    cases hs : step p op sp w with
    | ret sp1 w1 => simp [Flow.bind, ih]
    | longjmp v w1 => simp [Flow.bind]
    | exit c w1 => simp [Flow.bind]
    | abort w1 => simp [Flow.bind]

end ClientCode

section Lifecycle

/-- The backup, when the creation point lies above the frame of
`ctrans_new_transaction`. -/
theorem backup_Stack_eq (w : World) (stackTop : Int) (c : gpointer) (p2Stk : Int)
    (h : 0 ≤ to_gint (stackTop - p2Stk)) :
    ctrans_backup_Stack w stackTop c p2Stk =
      .ret () (w.setTrans c
        { w.trans c with
          stack_ptr2Top := stackTop
          stack_size := to_guint (to_gint (stackTop - p2Stk))
          stack_backup := (List.range (to_gint (stackTop - p2Stk)).toNat).map
            (fun (idx : Nat) => w.stack (stackTop - (idx : Int))) }) := by
  simp [ctrans_backup_Stack, not_lt.mpr h]

/-- The first return of `ctrans_new_transaction` without a parent. -/
theorem new_transaction_root (w : World) (stackTop : Int) (c : gpointer)
    (sDebug : Option String) (p2Stk : Int) (hc : c ≠ 0)
    (h : 0 ≤ to_gint (stackTop - p2Stk)) :
    ctrans_new_transaction w stackTop c 0 sDebug p2Stk =
      .ret TRANS_START (w.setTrans c (created w stackTop c sDebug p2Stk)) := by
  unfold ctrans_new_transaction
  rw [backup_Stack_eq w stackTop c p2Stk h]
  cases sDebug <;>
    simp [hc, Flow.bind, ctrans_new_transaction_resume, TRANS_START, TRANS_STOP,
      EXCEPTION_CAPTURED, created]

/-- Both values a `longjmp` of the library carries end in `goto ENDTRANS`. -/
theorem NEWTRANSACTION_goto (w : World) (p : gpointer) (val : Nat)
    (h : val = TRANS_STOP ∨ val = EXCEPTION_CAPTURED) :
    (NEWTRANSACTION w p val).2 = true := by
  rcases h with h | h <;> subst h <;> simp [NEWTRANSACTION, TRANS_STOP, EXCEPTION_CAPTURED]

/-- The conditional of `NEWTRANSACTION` on the first return. -/
theorem NEWTRANSACTION_start (w : World) (p : gpointer) :
    NEWTRANSACTION w p TRANS_START =
      (w.log (.handler .FUN_START p (w.trans p)), false) := by
  simp [NEWTRANSACTION, TRANS_START, TRANS_STOP, EXCEPTION_CAPTURED]

/-- A transaction, up to the moment its body and `ENDTRANSACTION` have run. -/
theorem transaction_eq (w : World) (stackTop : Int) (c : gpointer)
    (sDebug : Option String) (p2Stk : Int) (body : List Op) (hc : c ≠ 0)
    (h : 0 ≤ to_gint (stackTop - p2Stk)) :
    transaction w stackTop c sDebug p2Stk body =
      match (exec c body stackTop (started w stackTop c sDebug p2Stk)).bind
          (fun _ w2 => ENDTRANSACTION w2 c stackTop) with
      | .ret _ w3 => .ret () w3
      | .longjmp val w3 => creation_point w3 c val
      | .exit code w3 => .exit code w3
      | .abort w3 => .abort w3 := by
  unfold transaction
  rw [new_transaction_root w stackTop c sDebug p2Stk hc h]
  simp only [Flow.bind, NEWTRANSACTION_start, setTrans_trans_self, Bool.false_eq_true,
    if_false, started]

/-- The creation point after a `longjmp` with `TRANS_STOP`. -/
theorem creation_point_stop (w : World) (p : gpointer) :
    creation_point w p TRANS_STOP =
      .ret () (NEWTRANSACTION_free
        ((ctrans_free_resources w p).log (.handler .FUN_STOP p (w.trans p))) p) := by
  simp [creation_point, ctrans_new_transaction_resume, Flow.bind, NEWTRANSACTION,
    TRANS_STOP, EXCEPTION_CAPTURED]

/-- The creation point after a `longjmp` with `EXCEPTION_CAPTURED`. -/
theorem creation_point_exc (w : World) (p : gpointer) :
    creation_point w p EXCEPTION_CAPTURED =
      .ret () (NEWTRANSACTION_free
        ((ctrans_free_resources w p).log (.handler .FUN_EXC p (w.trans p))) p) := by
  simp [creation_point, ctrans_new_transaction_resume, Flow.bind, NEWTRANSACTION,
    TRANS_STOP, EXCEPTION_CAPTURED]

/-- A raise step leaves through `longjmp` with `EXCEPTION_CAPTURED`. -/
theorem step_raising (p : gpointer) (op : Op) (sp : Int) (w : World)
    (h : op.raising = true) :
    ∃ e, step p op sp w = .longjmp EXCEPTION_CAPTURED (raised w p e) := by
  cases op with
  | raise_sender type d e =>
    simp only [step, ctrans_raise_sender_exception, raise_exception_eq, Flow.bind]
    exact ⟨_, rfl⟩
  | raise_recipient type d e s =>
    simp only [step, ctrans_raise_recipient_exception, raise_exception_eq, Flow.bind]
    exact ⟨_, rfl⟩
  | call _ => simp [Op.raising] at h
  | leave _ => simp [Op.raising] at h
  | user _ => simp [Op.raising] at h
  | try_malloc _ _ _ => simp [Op.raising] at h
  | finish => simp [Op.raising] at h

/-- A transaction whose body is quiet ends through `ENDTRANSACTION`. -/
theorem transaction_stop (w : World) (stackTop : Int) (c : gpointer)
    (sDebug : Option String) (p2Stk : Int) (body : List Op) (hc : c ≠ 0)
    (h : 0 ≤ to_gint (stackTop - p2Stk)) (hq : ∀ op ∈ body, op.quiet = true) :
    transaction w stackTop c sDebug p2Stk body =
      creation_point
        (ctrans_restore_Stack
          (grow (started w stackTop c sDebug p2Stk) c (acquired body) (tagsOf body)) c)
        c TRANS_STOP := by
  rw [transaction_eq w stackTop c sDebug p2Stk body hc h, exec_quiet c body _ _ hq]
  simp only [Flow.bind, ENDTRANSACTION, finish_transaction_eq]

/-- A transaction whose body reaches a raise after quiet code ends through the
raise; the code behind the raise plays no part. -/
theorem transaction_abort (w : World) (stackTop : Int) (c : gpointer)
    (sDebug : Option String) (p2Stk : Int) (pre post : List Op) (r : Op) (hc : c ≠ 0)
    (h : 0 ≤ to_gint (stackTop - p2Stk)) (hq : ∀ op ∈ pre, op.quiet = true)
    (hr : r.raising = true) :
    ∃ e, step c r (spAfter pre stackTop)
          (grow (started w stackTop c sDebug p2Stk) c (acquired pre) (tagsOf pre)) =
        .longjmp EXCEPTION_CAPTURED
          (raised (grow (started w stackTop c sDebug p2Stk) c (acquired pre) (tagsOf pre))
            c e) ∧
      transaction w stackTop c sDebug p2Stk (pre ++ r :: post) =
        creation_point
          (raised (grow (started w stackTop c sDebug p2Stk) c (acquired pre) (tagsOf pre))
            c e)
          c EXCEPTION_CAPTURED := by
  obtain ⟨e, he⟩ := step_raising c r (spAfter pre stackTop)
    (grow (started w stackTop c sDebug p2Stk) c (acquired pre) (tagsOf pre)) hr
  refine ⟨e, he, ?_⟩
  rw [transaction_eq w stackTop c sDebug p2Stk _ hc h, exec_append, exec_quiet c pre _ _ hq]
  simp only [Flow.bind, exec, he]

/-- A step returns, or leaves through `longjmp` with one of the two values of
the library; it never ends the process. -/
theorem step_flow (p : gpointer) (op : Op) (sp : Int) (w : World) :
    (∃ sp1 w1, step p op sp w = .ret sp1 w1) ∨
      (∃ w1, step p op sp w = .longjmp TRANS_STOP w1) ∨
      (∃ w1, step p op sp w = .longjmp EXCEPTION_CAPTURED w1) := by
  cases op with
  | call frame => exact Or.inl ⟨_, _, rfl⟩
  | leave frame => exact Or.inl ⟨_, _, rfl⟩
  | user tag => exact Or.inl ⟨_, _, rfl⟩
  | try_malloc n_bytes b answer =>
    by_cases hr : g_try_malloc n_bytes answer = 0
    · cases b with
      | false =>
        refine Or.inl ⟨sp, w, ?_⟩
        simp [step, try_malloc_soft _ _ _ _ _ hr, Flow.bind]
      | true =>
        refine Or.inr (Or.inr ?_)
        simp only [step, ctrans_try_malloc, hr, ctrans_raise_sender_exception,
          raise_exception_eq, Flow.bind]
        exact ⟨_, rfl⟩
    · refine Or.inl ⟨sp, grow w p [g_try_malloc n_bytes answer] [], ?_⟩
      simp only [step, try_malloc_success _ _ _ _ _ _ hr, Flow.bind]
  | raise_sender type d e =>
    exact Or.inr (Or.inr (by
      obtain ⟨x, hx⟩ := step_raising p (.raise_sender type d e) sp w rfl
      exact ⟨_, hx⟩))
  | raise_recipient type d e t =>
    exact Or.inr (Or.inr (by
      obtain ⟨x, hx⟩ := step_raising p (.raise_recipient type d e t) sp w rfl
      exact ⟨_, hx⟩))
  | finish =>
    refine Or.inr (Or.inl ?_)
    simp only [step, finish_transaction_eq, Flow.bind]
    exact ⟨_, rfl⟩

/-- Client code returns, or leaves through `longjmp` with one of the two
values of the library. -/
theorem exec_flow (p : gpointer) (ops : List Op) (sp : Int) (w : World) :
    (∃ sp1 w1, exec p ops sp w = .ret sp1 w1) ∨
      (∃ w1, exec p ops sp w = .longjmp TRANS_STOP w1) ∨
      (∃ w1, exec p ops sp w = .longjmp EXCEPTION_CAPTURED w1) := by
  induction ops generalizing sp w with
  | nil => exact Or.inl ⟨_, _, rfl⟩
  | cons op ops ih =>
    rcases step_flow p op sp w with ⟨sp1, w1, h⟩ | ⟨w1, h⟩ | ⟨w1, h⟩
    · simpa [exec, h, Flow.bind] using ih sp1 w1
    · exact Or.inr (Or.inl ⟨w1, by simp [exec, h, Flow.bind]⟩)
    · exact Or.inr (Or.inr ⟨w1, by simp [exec, h, Flow.bind]⟩)

/-- A transaction always comes to its end: control reaches the code behind
`ENDTRANSACTION`, whatever the body. -/
theorem transaction_returns (w : World) (stackTop : Int) (c : gpointer)
    (sDebug : Option String) (p2Stk : Int) (body : List Op) (hc : c ≠ 0)
    (h : 0 ≤ to_gint (stackTop - p2Stk)) :
    ∃ wf, transaction w stackTop c sDebug p2Stk body = .ret () wf := by
  rw [transaction_eq w stackTop c sDebug p2Stk body hc h]
  rcases exec_flow c body stackTop (started w stackTop c sDebug p2Stk) with
    ⟨sp1, w1, h1⟩ | ⟨w1, h1⟩ | ⟨w1, h1⟩
  · simp only [h1, Flow.bind, ENDTRANSACTION, finish_transaction_eq, creation_point_stop]
    exact ⟨_, rfl⟩
  · simp only [h1, Flow.bind, creation_point_stop]
    exact ⟨_, rfl⟩
  · simp only [h1, Flow.bind, creation_point_exc]
    exact ⟨_, rfl⟩

end Lifecycle

section Releases

theorem quiet_of_acquiring (op : Op) (h : op.acquiring = true) : op.quiet = true := by
  cases op <;> simp_all [Op.acquiring, Op.quiet]

/-- The trace of a transaction that ends through `ENDTRANSACTION`. -/
theorem transaction_stop_world (w : World) (stackTop : Int) (c : gpointer)
    (sDebug : Option String) (p2Stk : Int) (body : List Op) (hc : c ≠ 0)
    (h : 0 ≤ to_gint (stackTop - p2Stk)) (hq : ∀ op ∈ body, op.quiet = true) :
    ∃ wf, transaction w stackTop c sDebug p2Stk body = .ret () wf ∧
      wf.trace = w.trace ++
        ([.handler .FUN_START c (created w stackTop c sDebug p2Stk)] ++
          (tagsOf body).map Event.user ++ teardown_events (acquired body) ++
          [.handler .FUN_STOP c
              { created w stackTop c sDebug p2Stk with allocated_memory := acquired body },
            .free_stack_backup c, .free_sDebug c, .free_transaction c]) ∧
      wf.trans c =
        { created w stackTop c sDebug p2Stk with allocated_memory := acquired body } := by
  rw [transaction_stop w stackTop c sDebug p2Stk body hc h hq, creation_point_stop]
  refine ⟨_, rfl, ?_, ?_⟩
  · simp [NEWTRANSACTION_free, started, created]
  · simp [NEWTRANSACTION_free, started, created]

/-- The trace of a transaction that ends through a raise. -/
theorem transaction_abort_world (w : World) (stackTop : Int) (c : gpointer)
    (sDebug : Option String) (p2Stk : Int) (pre post : List Op) (r : Op) (hc : c ≠ 0)
    (h : 0 ≤ to_gint (stackTop - p2Stk)) (hq : ∀ op ∈ pre, op.quiet = true)
    (hr : r.raising = true) :
    ∃ wf e, transaction w stackTop c sDebug p2Stk (pre ++ r :: post) = .ret () wf ∧
      wf.trace = w.trace ++
        ([.handler .FUN_START c (created w stackTop c sDebug p2Stk)] ++
          (tagsOf pre).map Event.user ++ teardown_events (acquired pre) ++
          [.handler .FUN_EXC c
              { created w stackTop c sDebug p2Stk with
                allocated_memory := acquired pre
                raisedException := some e },
            .free_stack_backup c, .free_sDebug c, .free_transaction c]) := by
  obtain ⟨e, -, he⟩ := transaction_abort w stackTop c sDebug p2Stk pre post r hc h hq hr
  rw [he, creation_point_exc]
  refine ⟨_, e, rfl, ?_⟩
  simp [NEWTRANSACTION_free, started, created, raised]

end Releases

section Readers

@[simp]
theorem deallocated_append (a b : List Event) :
    deallocated (a ++ b) = deallocated a ++ deallocated b := by
  induction a with
  | nil => rfl
  | cons e es ih => cases e <;> simp [deallocated, ih]

@[simp]
theorem freedLists_append (a b : List Event) :
    freedLists (a ++ b) = freedLists a ++ freedLists b := by
  induction a with
  | nil => rfl
  | cons e es ih => cases e <;> simp [freedLists, ih]

@[simp]
theorem handlersOf_append (p : gpointer) (a b : List Event) :
    handlersOf p (a ++ b) = handlersOf p a ++ handlersOf p b := by
  induction a with
  | nil => rfl
  | cons e es ih =>
    cases e <;> simp [handlersOf, ih]
    split <;> simp

@[simp]
theorem deallocated_map_g_free (l : List gpointer) :
    deallocated (l.map Event.g_free) = [] := by
  induction l with
  | nil => rfl
  | cons x xs ih => simp [deallocated, ih]

@[simp]
theorem handlersOf_map_g_free (p : gpointer) (l : List gpointer) :
    handlersOf p (l.map Event.g_free) = [] := by
  induction l with
  | nil => rfl
  | cons x xs ih => simp [handlersOf, ih]

@[simp]
theorem freedLists_map_g_free (l : List gpointer) :
    freedLists (l.map Event.g_free) = [] := by
  induction l with
  | nil => rfl
  | cons x xs ih => simp [freedLists, ih]

@[simp]
theorem deallocated_map_user (l : List Nat) : deallocated (l.map Event.user) = [] := by
  induction l with
  | nil => rfl
  | cons x xs ih => simp [deallocated, ih]

@[simp]
theorem handlersOf_map_user (p : gpointer) (l : List Nat) :
    handlersOf p (l.map Event.user) = [] := by
  induction l with
  | nil => rfl
  | cons x xs ih => simp [handlersOf, ih]

@[simp]
theorem deallocated_teardown_events (am : List gpointer) :
    deallocated (teardown_events am) = [] := by
  unfold teardown_events
  split <;> simp [deallocated]

@[simp]
theorem handlersOf_teardown_events (p : gpointer) (am : List gpointer) :
    handlersOf p (teardown_events am) = [] := by
  unfold teardown_events
  split <;> simp [handlersOf]

@[simp]
theorem raised_trace (w : World) (p : gpointer) (e : recipient_exception) :
    (raised w p e).trace = w.trace := by
  simp [raised]

@[simp]
theorem raised_trans_self (w : World) (p : gpointer) (e : recipient_exception) :
    (raised w p e).trans p = { w.trans p with raisedException := some e } := by
  simp [raised]

theorem raised_trans_other (w : World) (p q : gpointer) (e : recipient_exception)
    (h : q ≠ p) : (raised w p e).trans q = w.trans q := by
  simp [raised, setTrans_trans_other _ _ _ _ h]

end Readers

section Frames

/-- A step adds to the trace its own client code and nothing else. -/
theorem step_world_trace (p : gpointer) (op : Op) (sp : Int) (w : World) :
    (step p op sp w).world.trace = w.trace ++ (tagsOf [op]).map Event.user := by
  cases op with
  | call frame => simp [step, Flow.world, tagsOf]
  | leave frame => simp [step, Flow.world, tagsOf]
  | user tag => simp [step, Flow.world, tagsOf]
  | try_malloc n_bytes b answer =>
    by_cases hr : g_try_malloc n_bytes answer = 0
    · cases b <;>
        simp [step, ctrans_try_malloc, hr, ctrans_raise_sender_exception, raise_exception_eq,
          Flow.bind, Flow.world, tagsOf]
    · simp [step, try_malloc_success _ _ _ _ _ _ hr, Flow.bind, Flow.world, tagsOf]
  | raise_sender type d e =>
    simp [step, ctrans_raise_sender_exception, raise_exception_eq, Flow.bind, Flow.world,
      tagsOf]
  | raise_recipient type d e t =>
    simp [step, ctrans_raise_recipient_exception, raise_exception_eq, Flow.bind, Flow.world,
      tagsOf]
  | finish => simp [step, finish_transaction_eq, Flow.bind, Flow.world, tagsOf]

/-- A step on the transaction `p` writes no other transaction. -/
theorem step_world_trans_other (p q : gpointer) (op : Op) (sp : Int) (w : World)
    (h : q ≠ p) : (step p op sp w).world.trans q = w.trans q := by
  cases op with
  | call frame => simp [step, Flow.world]
  | leave frame => simp [step, Flow.world]
  | user tag => simp [step, Flow.world]
  | try_malloc n_bytes b answer =>
    by_cases hr : g_try_malloc n_bytes answer = 0
    · cases b <;>
        simp [step, ctrans_try_malloc, hr, ctrans_raise_sender_exception, raise_exception_eq,
          Flow.bind, Flow.world, raised_trans_other _ _ _ _ h]
    · simp [step, try_malloc_success _ _ _ _ _ _ hr, Flow.bind, Flow.world,
        grow_trans_other _ _ _ _ _ h]
  | raise_sender type d e =>
    simp [step, ctrans_raise_sender_exception, raise_exception_eq, Flow.bind, Flow.world,
      raised_trans_other _ _ _ _ h]
  | raise_recipient type d e t =>
    simp [step, ctrans_raise_recipient_exception, raise_exception_eq, Flow.bind, Flow.world,
      raised_trans_other _ _ _ _ h]
  | finish => simp [step, finish_transaction_eq, Flow.bind, Flow.world]

theorem bind_ret_world {α : Type} (m : Flow α) :
    (m.bind fun a w1 => Flow.ret a w1).world = m.world := by
  cases m <;> rfl

/-- Client code adds to the trace client events only. -/
theorem exec_world_trace (p : gpointer) (ops : List Op) (sp : Int) (w : World) :
    ∃ tags : List Nat, (exec p ops sp w).world.trace = w.trace ++ tags.map Event.user := by
  induction ops generalizing sp w with
  | nil => exact ⟨[], by simp [exec, Flow.world]⟩
  | cons op ops ih =>
    have hs := step_world_trace p op sp w
    cases h : step p op sp w with
    | ret sp1 w1 =>
      obtain ⟨tags, ht⟩ := ih sp1 w1
      refine ⟨tagsOf [op] ++ tags, ?_⟩
      rw [h] at hs
      simp only [Flow.world] at hs
      simp [exec, h, Flow.bind, ht, hs]
    | longjmp v w1 =>
      rw [h] at hs
      exact ⟨tagsOf [op], by simpa [exec, h, Flow.bind] using hs⟩
    | exit c w1 =>
      rw [h] at hs
      exact ⟨tagsOf [op], by simpa [exec, h, Flow.bind] using hs⟩
    | abort w1 =>
      rw [h] at hs
      exact ⟨tagsOf [op], by simpa [exec, h, Flow.bind] using hs⟩

/-- Client code running on the transaction `p` writes no other transaction. -/
theorem exec_world_trans_other (p q : gpointer) (ops : List Op) (sp : Int) (w : World)
    (hq : q ≠ p) : (exec p ops sp w).world.trans q = w.trans q := by
  induction ops generalizing sp w with
  | nil => simp [exec, Flow.world]
  | cons op ops ih =>
    have hs := step_world_trans_other p q op sp w hq
    cases h : step p op sp w with
    | ret sp1 w1 =>
      rw [h] at hs
      simp only [Flow.world] at hs
      simp [exec, h, Flow.bind, ih, hs]
    | longjmp v w1 =>
      rw [h] at hs
      simpa [exec, h, Flow.bind] using hs
    | exit c w1 =>
      rw [h] at hs
      simpa [exec, h, Flow.bind] using hs
    | abort w1 =>
      rw [h] at hs
      simpa [exec, h, Flow.bind] using hs

end Frames

section Outcome

/-- The body of a transaction with `ENDTRANSACTION` behind it always leaves
through `longjmp`, with `TRANS_STOP` or with `EXCEPTION_CAPTURED`; up to then
the trace has grown by client events only and no other transaction has been
written. -/
theorem body_flow_cases (w : World) (c : gpointer) (stackTop : Int) (body : List Op) :
    ∃ (w3 : World) (tags : List Nat),
      (body_flow w c stackTop body = .longjmp TRANS_STOP w3 ∨
        body_flow w c stackTop body = .longjmp EXCEPTION_CAPTURED w3) ∧
      w3.trace = w.trace ++ tags.map Event.user ∧
      ∀ q, q ≠ c → w3.trans q = w.trans q := by
  obtain ⟨tags, ht⟩ := exec_world_trace c body stackTop w
  have hf := fun q hq => exec_world_trans_other c q body stackTop w hq
  unfold body_flow
  rcases exec_flow c body stackTop w with ⟨sp1, w1, h1⟩ | ⟨w1, h1⟩ | ⟨w1, h1⟩
  · rw [h1] at ht hf
    simp only [Flow.world] at ht hf
    refine ⟨ctrans_restore_Stack w1 c, tags, Or.inl ?_, ?_, ?_⟩
    · simp only [h1, Flow.bind, ENDTRANSACTION, finish_transaction_eq]
    · simpa using ht
    · intro q hq
      simpa using hf q hq
  · rw [h1] at ht hf
    simp only [Flow.world] at ht hf
    exact ⟨w1, tags, Or.inl (by simp only [h1, Flow.bind]), ht, hf⟩
  · rw [h1] at ht hf
    simp only [Flow.world] at ht hf
    exact ⟨w1, tags, Or.inr (by simp only [h1, Flow.bind]), ht, hf⟩

/-- A transaction in terms of the flow of its body. -/
theorem transaction_eq_body_flow (w : World) (stackTop : Int) (c : gpointer)
    (sDebug : Option String) (p2Stk : Int) (body : List Op) (hc : c ≠ 0)
    (h : 0 ≤ to_gint (stackTop - p2Stk)) :
    transaction w stackTop c sDebug p2Stk body =
      match body_flow (started w stackTop c sDebug p2Stk) c stackTop body with
      | .ret _ w3 => .ret () w3
      | .longjmp val w3 => creation_point w3 c val
      | .exit code w3 => .exit code w3
      | .abort w3 => .abort w3 :=
  transaction_eq w stackTop c sDebug p2Stk body hc h

/-- The first return of `ctrans_new_transaction` under a parent. -/
theorem new_transaction_under (w : World) (stackTop : Int) (c parent : gpointer)
    (sDebug : Option String) (p2Stk : Int) (hc : c ≠ 0) (hp : parent ≠ 0)
    (hpc : parent ≠ c) (h : 0 ≤ to_gint (stackTop - p2Stk)) :
    ctrans_new_transaction w stackTop c parent sDebug p2Stk =
      .ret TRANS_START
        ((w.setTrans c (created w stackTop c sDebug p2Stk)).setTrans parent
          { w.trans parent with
            child_transactions := c :: (w.trans parent).child_transactions }) := by
  unfold ctrans_new_transaction
  rw [backup_Stack_eq w stackTop c p2Stk h]
  have hcp : c ≠ parent := fun e => hpc e.symm
  cases sDebug <;>
    · simp only [hc, hp, if_false, Flow.bind, ctrans_new_transaction_resume, TRANS_START,
        TRANS_STOP, EXCEPTION_CAPTURED, ne_eq, not_false_eq_true, if_true, g_list_prepend]
      rw [if_neg (by decide)]
      congr 1
      ext q
      · simp only [World.setTrans, created, Option.getD]
        by_cases h1 : q = c <;> by_cases h2 : q = parent <;> simp_all
      · rfl
      · rfl

/-- A transaction created under a parent in terms of the flow of its body. -/
theorem child_transaction_eq (w : World) (stackTop : Int) (c parent : gpointer)
    (sDebug : Option String) (p2Stk : Int) (body : List Op) (hc : c ≠ 0) (hp : parent ≠ 0)
    (hpc : parent ≠ c) (h : 0 ≤ to_gint (stackTop - p2Stk)) :
    child_transaction w stackTop c parent sDebug p2Stk body =
      match body_flow (started_under w stackTop c parent sDebug p2Stk) c stackTop body with
      | .ret _ w3 => .ret () w3
      | .longjmp val w3 => creation_point w3 c val
      | .exit code w3 => .exit code w3
      | .abort w3 => .abort w3 := by
  unfold child_transaction
  rw [new_transaction_under w stackTop c parent sDebug p2Stk hc hp hpc h]
  have hcp : c ≠ parent := fun e => hpc e.symm
  simp only [Flow.bind, NEWTRANSACTION_start, Bool.false_eq_true, if_false, started_under,
    body_flow, setTrans_trans_other _ _ _ _ hcp, setTrans_trans_self]

end Outcome

section Life

theorem transaction_eq_resume (w : World) (stackTop : Int) (c : gpointer)
    (sDebug : Option String) (p2Stk : Int) (body : List Op) (hc : c ≠ 0)
    (h : 0 ≤ to_gint (stackTop - p2Stk)) :
    transaction w stackTop c sDebug p2Stk body =
      resume c (body_flow (started w stackTop c sDebug p2Stk) c stackTop body) := by
  rw [transaction_eq_body_flow w stackTop c sDebug p2Stk body hc h]
  rfl

theorem child_transaction_eq_resume (w : World) (stackTop : Int) (c parent : gpointer)
    (sDebug : Option String) (p2Stk : Int) (body : List Op) (hc : c ≠ 0) (hp : parent ≠ 0)
    (hpc : parent ≠ c) (h : 0 ≤ to_gint (stackTop - p2Stk)) :
    child_transaction w stackTop c parent sDebug p2Stk body =
      resume c (body_flow (started_under w stackTop c parent sDebug p2Stk) c stackTop body) := by
  rw [child_transaction_eq w stackTop c parent sDebug p2Stk body hc hp hpc h]
  rfl

/-- From the start of the body to the code behind `ENDTRANSACTION`: the body
leaves with a status, the creation point tears down, calls the handler of
that status and deallocates, in this order. No other transaction is written. -/
theorem resume_body_flow (w2 : World) (c : gpointer) (stackTop : Int) (body : List Op) :
    ∃ (wf w3 : World) (tags : List Nat) (H : Handler),
      resume c (body_flow w2 c stackTop body) = .ret () wf ∧
      ((body_flow w2 c stackTop body = .longjmp TRANS_STOP w3 ∧ H = .FUN_STOP) ∨
        (body_flow w2 c stackTop body = .longjmp EXCEPTION_CAPTURED w3 ∧ H = .FUN_EXC)) ∧
      wf.trace = w2.trace ++
        (tags.map Event.user ++ teardown_events (wf.trans c).allocated_memory ++
          [.handler H c (wf.trans c), .free_stack_backup c, .free_sDebug c,
            .free_transaction c]) ∧
      wf.trans = w3.trans ∧
      ∀ q, q ≠ c → wf.trans q = w2.trans q := by
  obtain ⟨w3, tags, hcase, htr, hfr⟩ := body_flow_cases w2 c stackTop body
  rcases hcase with h | h
  · refine ⟨NEWTRANSACTION_free
      ((ctrans_free_resources w3 c).log (.handler .FUN_STOP c (w3.trans c))) c,
      w3, tags, .FUN_STOP, ?_, Or.inl ⟨h, rfl⟩, ?_, ?_, ?_⟩
    · rw [h]
      exact creation_point_stop w3 c
    · simp [NEWTRANSACTION_free, htr]
    · simp [NEWTRANSACTION_free]
    · intro q hq
      simpa [NEWTRANSACTION_free] using hfr q hq
  · refine ⟨NEWTRANSACTION_free
      ((ctrans_free_resources w3 c).log (.handler .FUN_EXC c (w3.trans c))) c,
      w3, tags, .FUN_EXC, ?_, Or.inr ⟨h, rfl⟩, ?_, ?_, ?_⟩
    · rw [h]
      exact creation_point_exc w3 c
    · simp [NEWTRANSACTION_free, htr]
    · simp [NEWTRANSACTION_free]
    · intro q hq
      simpa [NEWTRANSACTION_free] using hfr q hq

end Life

section Loop

theorem acquired_all_length (k : Nat) (runs : List Run)
    (h : ∀ r ∈ runs, (acquired r.body).length = k) :
    (acquired_all runs).length = runs.length * k := by
  induction runs with
  | nil => simp [acquired_all]
  | cons r rs ih =>
    simp only [acquired_all, List.length_append, List.length_cons]
    rw [h r (List.mem_cons_self _ _), ih (fun x hx => h x (List.mem_cons_of_mem _ hx))]
    ring

/-- The loop over passes that all end through `ENDTRANSACTION`. -/
theorem run_main_loop_world (stackTop p2Stk : Int) (runs : List Run) (w : World)
    (hstk : 0 ≤ to_gint (stackTop - p2Stk))
    (hruns : ∀ r ∈ runs, r.newTrans ≠ 0 ∧ ∀ op ∈ r.body, op.quiet = true) :
    ∃ wf, run_main_loop stackTop p2Stk runs w = .ret () wf ∧
      released wf.trace = released w.trace ++ acquired_all runs ∧
      (handlers wf.trace).count .FUN_START = (handlers w.trace).count .FUN_START + runs.length ∧
      (handlers wf.trace).count .FUN_STOP = (handlers w.trace).count .FUN_STOP + runs.length ∧
      (handlers wf.trace).count .FUN_EXC = (handlers w.trace).count .FUN_EXC ∧
      deallocated wf.trace = deallocated w.trace ++ runs.map (fun r => r.newTrans) := by
  induction runs generalizing w with
  | nil => exact ⟨w, rfl, by simp [acquired_all]⟩
  | cons r rs ih =>
    obtain ⟨hc, hq⟩ := hruns r (List.mem_cons_self _ _)
    obtain ⟨w1, hw1, htrace, -⟩ :=
      transaction_stop_world w stackTop r.newTrans r.sDebug p2Stk r.body hc hstk hq
    obtain ⟨wf, hwf, hrel, hstart, hstop, hexc, hde⟩ :=
      ih w1 (fun x hx => hruns x (List.mem_cons_of_mem _ hx))
    refine ⟨wf, ?_, ?_, ?_, ?_, ?_, ?_⟩
    · simp only [run_main_loop, hw1, Flow.bind, hwf]
    · rw [hrel, htrace]
      simp [released, acquired_all]
    · rw [hstart, htrace]
      simp [handlers]
      omega
    · rw [hstop, htrace]
      simp [handlers]
      omega
    · rw [hexc, htrace]
      simp [handlers]
    · rw [hde, htrace]
      simp [deallocated]

end Loop

section Stack

theorem to_gint_eq (z : Int) (h0 : 0 ≤ z) (h1 : z < 2 ^ 31) : to_gint z = z := by
  unfold to_gint
  norm_num at h1 ⊢
  omega

theorem to_guint_eq (z : Int) (h0 : 0 ≤ z) (h1 : z < 2 ^ 31) : to_guint z = z.toNat := by
  unfold to_guint
  norm_num at h1 ⊢
  rw [Int.emod_eq_of_lt h0 (by omega)]

@[simp]
theorem poke_stack (w : World) (a b : Int) (v : Nat) :
    (w.poke a v).stack b = if b = a then v else w.stack b := rfl

/-- The words the restore loop has written after `n` rounds. -/
theorem restore_loop_stack (p : gpointer) (n : Nat) (w : World) (a : Int) :
    ((List.range n).foldl (fun (acc : World) (idx : Nat) =>
        acc.poke ((acc.trans p).stack_ptr2Top - (idx : Int))
          ((acc.trans p).stack_backup.getD idx 0)) w).stack a =
      if (w.trans p).stack_ptr2Top - n < a ∧ a ≤ (w.trans p).stack_ptr2Top then
        (w.trans p).stack_backup.getD ((w.trans p).stack_ptr2Top - a).toNat 0
      else w.stack a := by
  induction n with
  | zero =>
    have h0 : ¬ ((w.trans p).stack_ptr2Top - ((0 : Nat) : Int) < a ∧
        a ≤ (w.trans p).stack_ptr2Top) := by
      omega
    rw [if_neg h0]
    rfl
  | succ n ih =>
    rw [List.range_succ, List.foldl_append, List.foldl_cons, List.foldl_nil, poke_stack,
      (restore_loop_trans p (List.range n) w).1, ih]
    by_cases h1 : a = (w.trans p).stack_ptr2Top - (n : Int)
    · have h2 : (w.trans p).stack_ptr2Top - ((n + 1 : Nat) : Int) < a ∧
          a ≤ (w.trans p).stack_ptr2Top := by
        subst h1
        omega
      have h3 : ((w.trans p).stack_ptr2Top - a).toNat = n := by
        subst h1
        omega
      rw [if_pos h1, if_pos h2, h3]
    · rw [if_neg h1]
      by_cases h2 : (w.trans p).stack_ptr2Top - (n : Int) < a ∧ a ≤ (w.trans p).stack_ptr2Top
      · have h3 : (w.trans p).stack_ptr2Top - ((n + 1 : Nat) : Int) < a ∧
            a ≤ (w.trans p).stack_ptr2Top := by omega
        rw [if_pos h2, if_pos h3]
      · have h3 : ¬ ((w.trans p).stack_ptr2Top - ((n + 1 : Nat) : Int) < a ∧
            a ≤ (w.trans p).stack_ptr2Top) := by omega
        rw [if_neg h2, if_neg h3]

/-- The stack after `ctrans_restore_Stack`: the `stack_size` words from
`stack_ptr2Top` downward hold the backup, every other word is as before. -/
theorem restore_stack (w : World) (p : gpointer) (a : Int) :
    (ctrans_restore_Stack w p).stack a =
      if (w.trans p).stack_ptr2Top - (w.trans p).stack_size < a ∧
          a ≤ (w.trans p).stack_ptr2Top then
        (w.trans p).stack_backup.getD ((w.trans p).stack_ptr2Top - a).toNat 0
      else w.stack a :=
  restore_loop_stack p (w.trans p).stack_size w a

end Stack

section Ownership

/-- A step leaves in `allocated_memory` what was there, followed by handles it
acquired itself. -/
theorem step_world_allocated (p : gpointer) (op : Op) (sp : Int) (w : World) :
    ∃ hs : List gpointer,
      ((step p op sp w).world.trans p).allocated_memory =
        (w.trans p).allocated_memory ++ hs ∧
      ∀ h ∈ hs, h ∈ acquired [op] := by
  cases op with
  | call frame => exact ⟨[], by simp [step, Flow.world], by simp⟩
  | leave frame => exact ⟨[], by simp [step, Flow.world], by simp⟩
  | user tag => exact ⟨[], by simp [step, Flow.world], by simp⟩
  | try_malloc n_bytes b answer =>
    by_cases hr : g_try_malloc n_bytes answer = 0
    · refine ⟨[], ?_, by simp⟩
      cases b <;>
        simp [step, ctrans_try_malloc, hr, ctrans_raise_sender_exception, raise_exception_eq,
          Flow.bind, Flow.world]
    · refine ⟨[g_try_malloc n_bytes answer], ?_, by simp [acquired, hr]⟩
      simp [step, try_malloc_success _ _ _ _ _ _ hr, Flow.bind, Flow.world]
  | raise_sender type d e =>
    exact ⟨[], by
      simp [step, ctrans_raise_sender_exception, raise_exception_eq, Flow.bind, Flow.world],
      by simp⟩
  | raise_recipient type d e t =>
    exact ⟨[], by
      simp [step, ctrans_raise_recipient_exception, raise_exception_eq, Flow.bind,
        Flow.world],
      by simp⟩
  | finish =>
    exact ⟨[], by simp [step, finish_transaction_eq, Flow.bind, Flow.world], by simp⟩

/-- Client code leaves in `allocated_memory` what was there, followed by
handles it acquired itself. -/
theorem exec_world_allocated (p : gpointer) (ops : List Op) (sp : Int) (w : World) :
    ∃ hs : List gpointer,
      ((exec p ops sp w).world.trans p).allocated_memory =
        (w.trans p).allocated_memory ++ hs ∧
      ∀ h ∈ hs, h ∈ acquired ops := by
  induction ops generalizing sp w with
  | nil => exact ⟨[], by simp [exec, Flow.world], by simp⟩
  | cons op ops ih =>
    obtain ⟨hs, h1, h2⟩ := step_world_allocated p op sp w
    have hmem : ∀ h ∈ hs, h ∈ acquired (op :: ops) := by
      intro h hh
      rw [acquired_cons]
      exact List.mem_append_left _ (h2 h hh)
    cases hstep : step p op sp w with
    | ret sp1 w1 =>
      rw [hstep] at h1
      simp only [Flow.world] at h1
      obtain ⟨hs1, h3, h4⟩ := ih sp1 w1
      refine ⟨hs ++ hs1, ?_, ?_⟩
      · simp [exec, hstep, Flow.bind, h3, h1]
      · intro h hh
        rw [acquired_cons]
        rcases List.mem_append.mp hh with hh | hh
        · exact List.mem_append_left _ (h2 h hh)
        · exact List.mem_append_right _ (h4 h hh)
    | longjmp v w1 =>
      rw [hstep] at h1
      exact ⟨hs, by simpa [exec, hstep, Flow.bind] using h1, hmem⟩
    | exit c w1 =>
      rw [hstep] at h1
      exact ⟨hs, by simpa [exec, hstep, Flow.bind] using h1, hmem⟩
    | abort w1 =>
      rw [hstep] at h1
      exact ⟨hs, by simpa [exec, hstep, Flow.bind] using h1, hmem⟩

/-- The macro `ENDTRANSACTION` behind the body writes no transaction. -/
theorem body_flow_world_trans (w : World) (c : gpointer) (stackTop : Int) (body : List Op) :
    (body_flow w c stackTop body).world.trans = (exec c body stackTop w).world.trans := by
  unfold body_flow
  cases h : exec c body stackTop w with
  | ret sp1 w1 => simp [Flow.bind, ENDTRANSACTION, finish_transaction_eq, Flow.world]
  | longjmp v w1 => rfl
  | exit code w1 => rfl
  | abort w1 => rfl

end Ownership

section Backup

/-- The backup of `n` words, for `n` in the range of an `int`. -/
theorem backup_Stack_eq_range (w : World) (stackTop : Int) (p : gpointer) (p2Stk : Int)
    (h0 : 0 ≤ stackTop - p2Stk) (h1 : stackTop - p2Stk < 2 ^ 31) :
    ctrans_backup_Stack w stackTop p p2Stk =
      .ret () (w.setTrans p
        { w.trans p with
          stack_ptr2Top := stackTop
          stack_size := (stackTop - p2Stk).toNat
          stack_backup := (List.range (stackTop - p2Stk).toNat).map
            (fun (idx : Nat) => w.stack (stackTop - (idx : Int))) }) := by
  have hg := to_gint_eq _ h0 h1
  rw [backup_Stack_eq w stackTop p p2Stk (by rw [hg]; exact h0), hg, to_guint_eq _ h0 h1]

/-- The entries of a backup. -/
theorem backup_entry (stack : Int → Nat) (stackTop : Int) (n i : Nat) (h : i < n) :
    ((List.range n).map (fun (idx : Nat) => stack (stackTop - (idx : Int)))).getD i 0 =
      stack (stackTop - (i : Int)) := by
  rw [List.getD_eq_getElem _ _ (by simpa using h)]
  simp

end Backup

/-! ## The claims -/

section Claims

/-- C1: when the body of a transaction is a sequence of successful calls of
`ctrans_try_malloc` (between calls, returns and client code) and the
transaction is ended with `ENDTRANSACTION`, the blocks `ctrans_free_resources`
passes to `g_free` are the handles recorded in `allocated_memory`, which are
the handles acquired: each acquired handle is released once, and no other
block is released. That the handles are pairwise distinct is the contract of
the allocator. -/
theorem finish_releases_what_was_acquired (w : World) (stackTop : Int) (c : gpointer)
    (sDebug : Option String) (p2Stk : Int) (body : List Op) (hc : c ≠ 0)
    (hstk : 0 ≤ to_gint (stackTop - p2Stk))
    (hbody : ∀ op ∈ body, op.acquiring = true) (hfresh : (acquired body).Nodup) :
    ∃ wf, transaction w stackTop c sDebug p2Stk body = .ret () wf ∧
      (wf.trans c).allocated_memory = acquired body ∧
      released wf.trace = released w.trace ++ (wf.trans c).allocated_memory ∧
      (∀ h ∈ acquired body,
        (released wf.trace).count h = (released w.trace).count h + 1) ∧
      (∀ h, h ∉ acquired body →
        (released wf.trace).count h = (released w.trace).count h) ∧
      handlers wf.trace = handlers w.trace ++ [.FUN_START, .FUN_STOP] := by
  obtain ⟨wf, hwf, htrace, htrans⟩ := transaction_stop_world w stackTop c sDebug p2Stk body
    hc hstk (fun op hop => quiet_of_acquiring op (hbody op hop))
  have hrel : released wf.trace = released w.trace ++ acquired body := by
    simp [htrace, released]
  refine ⟨wf, hwf, ?_, ?_, ?_, ?_, ?_⟩
  · simp [htrans]
  · simp [hrel, htrans]
  · intro h hh
    rw [hrel, List.count_append, List.count_eq_one_of_mem hfresh hh]
  · intro h hh
    rw [hrel, List.count_append, List.count_eq_zero_of_not_mem hh, Nat.add_zero]
  · simp [htrace, handlers]

theorem finish_releases_what_was_acquired_witness :
    ((5 : gpointer) ≠ 0 ∧ 0 ≤ to_gint (1000 - 990) ∧
      (∀ op ∈ [Op.try_malloc 8 true 11, Op.call 3, Op.try_malloc 8 false 12],
        op.acquiring = true) ∧
      (acquired [Op.try_malloc 8 true 11, Op.call 3, Op.try_malloc 8 false 12]).Nodup) ∧
    ∃ wf, transaction world0 1000 5 (some "Trans1") 990
        [Op.try_malloc 8 true 11, Op.call 3, Op.try_malloc 8 false 12] = .ret () wf ∧
      (wf.trans 5).allocated_memory =
        acquired [Op.try_malloc 8 true 11, Op.call 3, Op.try_malloc 8 false 12] ∧
      released wf.trace = released world0.trace ++ (wf.trans 5).allocated_memory ∧
      (∀ h ∈ acquired [Op.try_malloc 8 true 11, Op.call 3, Op.try_malloc 8 false 12],
        (released wf.trace).count h = (released world0.trace).count h + 1) ∧
      (∀ h, h ∉ acquired [Op.try_malloc 8 true 11, Op.call 3, Op.try_malloc 8 false 12] →
        (released wf.trace).count h = (released world0.trace).count h) ∧
      handlers wf.trace = handlers world0.trace ++ [.FUN_START, .FUN_STOP] :=
  ⟨⟨by decide, by decide, by decide, by decide⟩,
    finish_releases_what_was_acquired world0 1000 5 (some "Trans1") 990
      [Op.try_malloc 8 true 11, Op.call 3, Op.try_malloc 8 false 12]
      (by decide) (by decide) (by decide) (by decide)⟩

/-- C2, as stated, fails: two handles acquired in the order 11, 12 are
released by `ctrans_free_resources` in the order 11, 12, not 12, 11. -/
theorem release_order_counterexample :
    released
        (ctrans_free_resources
          (exec 5 [Op.try_malloc 8 true 11, Op.try_malloc 8 true 12] 0 world0).world
          5).trace = [11, 12] ∧
      released
        (ctrans_free_resources
          (exec 5 [Op.try_malloc 8 true 11, Op.try_malloc 8 true 12] 0 world0).world
          5).trace ≠ [12, 11] := by
  decide

/-- C2, amended: after resources r1, ..., rn were acquired in that order,
`ctrans_free_resources` passes the recorded handles to `g_free` in the order
of acquisition, first acquired first released: the handles recorded before,
then r1, ..., rn. -/
theorem teardown_releases_in_acquisition_order (w : World) (p : gpointer) (sp : Int)
    (body : List Op) (hbody : ∀ op ∈ body, op.acquiring = true) :
    ∃ sp1 w1, exec p body sp w = .ret sp1 w1 ∧
      released (ctrans_free_resources w1 p).trace =
        released w.trace ++ ((w.trans p).allocated_memory ++ acquired body) := by
  refine ⟨_, _, exec_quiet p body sp w (fun op hop => quiet_of_acquiring op (hbody op hop)), ?_⟩
  simp [released]

theorem teardown_releases_in_acquisition_order_witness :
    (∀ op ∈ [Op.try_malloc 8 true 11, Op.try_malloc 8 true 12], op.acquiring = true) ∧
    ∃ sp1 w1, exec 5 [Op.try_malloc 8 true 11, Op.try_malloc 8 true 12] 0 world0 =
        .ret sp1 w1 ∧
      released (ctrans_free_resources w1 5).trace =
        released world0.trace ++
          ((world0.trans 5).allocated_memory ++
            acquired [Op.try_malloc 8 true 11, Op.try_malloc 8 true 12]) :=
  ⟨by decide,
    teardown_releases_in_acquisition_order world0 5 0
      [Op.try_malloc 8 true 11, Op.try_malloc 8 true 12] (by decide)⟩

/-- C3: let quiet code `pre` (any pattern of calls and returns, at any depth,
client code and tracked allocations that do not raise) run between the
creation point of a transaction and a call `r` of
`ctrans_raise_sender_exception` or `ctrans_raise_recipient_exception`. From
every stack position the raise leaves through `longjmp` with
`EXCEPTION_CAPTURED`; the transaction then calls `FUN_EXC` once and `FUN_STOP`
never; and the code `post` behind the raise does not run: only the client
code of `pre` shows in the trace, and the outcome is the one of the body with
`post` removed. -/
theorem raise_returns_to_creation_point (w : World) (stackTop : Int) (c : gpointer)
    (sDebug : Option String) (p2Stk : Int) (pre post : List Op) (r : Op) (hc : c ≠ 0)
    (hstk : 0 ≤ to_gint (stackTop - p2Stk)) (hpre : ∀ op ∈ pre, op.quiet = true)
    (hr : r.raising = true) :
    (∀ (sp : Int) (w1 : World), ∃ wj,
      exec c (pre ++ r :: post) sp w1 = .longjmp EXCEPTION_CAPTURED wj ∧
      userTags wj.trace = userTags w1.trace ++ tagsOf pre) ∧
    ∃ wf, transaction w stackTop c sDebug p2Stk (pre ++ r :: post) = .ret () wf ∧
      handlers wf.trace = handlers w.trace ++ [.FUN_START, .FUN_EXC] ∧
      userTags wf.trace = userTags w.trace ++ tagsOf pre ∧
      transaction w stackTop c sDebug p2Stk (pre ++ r :: post) =
        transaction w stackTop c sDebug p2Stk (pre ++ [r]) := by
  constructor
  · intro sp w1
    obtain ⟨e, he⟩ := step_raising c r (spAfter pre sp)
      (grow w1 c (acquired pre) (tagsOf pre)) hr
    refine ⟨raised (grow w1 c (acquired pre) (tagsOf pre)) c e, ?_, ?_⟩
    · rw [exec_append, exec_quiet c pre sp w1 hpre]
      simp only [Flow.bind, exec, he]
    · simp [raised]
  · obtain ⟨wf, e, hwf, htrace⟩ := transaction_abort_world w stackTop c sDebug p2Stk pre post r
      hc hstk hpre hr
    obtain ⟨e1, h1, h2⟩ := transaction_abort w stackTop c sDebug p2Stk pre post r hc hstk hpre hr
    obtain ⟨e2, h3, h4⟩ := transaction_abort w stackTop c sDebug p2Stk pre [] r hc hstk hpre hr
    have he : e1 = e2 := by
      have h5 := h1.symm.trans h3
      injection h5 with _ h6
      have h7 := congrArg (fun x => (x.trans c).raisedException) h6
      simpa [raised] using h7
    refine ⟨wf, hwf, ?_, ?_, ?_⟩
    · simp [htrace, handlers]
    · simp [htrace, userTags]
    · rw [h2, h4, he]

theorem raise_returns_to_creation_point_witness :
    ((5 : gpointer) ≠ 0 ∧ 0 ≤ to_gint (1000 - 990) ∧
      (∀ op ∈ [Op.call 4, Op.user 1, Op.call 4, Op.try_malloc 8 true 11, Op.call 4],
        op.quiet = true) ∧
      (Op.raise_sender 2000000 "description" "detail").raising = true) ∧
    ((∀ (sp : Int) (w1 : World), ∃ wj,
      exec 5
          ([Op.call 4, Op.user 1, Op.call 4, Op.try_malloc 8 true 11, Op.call 4] ++
            Op.raise_sender 2000000 "description" "detail" :: [Op.user 2, Op.leave 4])
          sp w1 = .longjmp EXCEPTION_CAPTURED wj ∧
      userTags wj.trace = userTags w1.trace ++
        tagsOf [Op.call 4, Op.user 1, Op.call 4, Op.try_malloc 8 true 11, Op.call 4]) ∧
    ∃ wf, transaction world0 1000 5 none 990
          ([Op.call 4, Op.user 1, Op.call 4, Op.try_malloc 8 true 11, Op.call 4] ++
            Op.raise_sender 2000000 "description" "detail" :: [Op.user 2, Op.leave 4]) =
        .ret () wf ∧
      handlers wf.trace = handlers world0.trace ++ [.FUN_START, .FUN_EXC] ∧
      userTags wf.trace = userTags world0.trace ++
        tagsOf [Op.call 4, Op.user 1, Op.call 4, Op.try_malloc 8 true 11, Op.call 4] ∧
      transaction world0 1000 5 none 990
          ([Op.call 4, Op.user 1, Op.call 4, Op.try_malloc 8 true 11, Op.call 4] ++
            Op.raise_sender 2000000 "description" "detail" :: [Op.user 2, Op.leave 4]) =
        transaction world0 1000 5 none 990
          ([Op.call 4, Op.user 1, Op.call 4, Op.try_malloc 8 true 11, Op.call 4] ++
            [Op.raise_sender 2000000 "description" "detail"])) :=
  ⟨⟨by decide, by decide, by decide, by decide⟩,
    raise_returns_to_creation_point world0 1000 5 none 990
      [Op.call 4, Op.user 1, Op.call 4, Op.try_malloc 8 true 11, Op.call 4]
      [Op.user 2, Op.leave 4] (Op.raise_sender 2000000 "description" "detail")
      (by decide) (by decide) (by decide) (by decide)⟩

/-- C4 at the input of `test1.c`: `subSubAction` calls
`ctrans_raise_recipient_exception(pTrans, USER, "description", "detail",
"solution")`; the record `FUN_EXC` then finds in the transaction has `type`,
`description_i18n` and `solution_i18n` as passed, but its `detail_i18n` is the
description, not the detail that was passed. -/
theorem abort_handler_reads_description_as_detail :
    (seenBy .FUN_EXC
        (transaction world0 1000 5 (some "Trans1") 990 test1_body).world.trace).map
        (fun t => t.raisedException) =
      [some
        { parent :=
            { type := 1100000
              serial_number := 0
              parent_serial_number := 0
              ms_timestamp := 0
              gthread := 0
              description_i18n := "description"
              detail_i18n := "description" }
          solution_i18n := some "solution" }] := by
  rw [transaction_eq _ _ _ _ _ _ (by decide) (by decide)]
  simp [test1_body, exec, step, ctrans_try_malloc, g_try_malloc, g_list_append,
    ctrans_raise_recipient_exception, raise_exception_eq, Flow.bind, creation_point_exc,
    Flow.world, NEWTRANSACTION_free, raised, started, seenBy, recipEx_type.val]

/-- C6, as stated, fails: a parent whose child collection is `[3]` has, after
the creation of the child 5, the child collection `[5, 3]`: the new child is
the first entry, not the last, and the entry 3 has moved. -/
theorem new_child_counterexample :
    ((ctrans_new_transaction
        (world0.setTrans 7 { blank with child_transactions := [3] })
        1000 5 7 none 990).world.trans 7).child_transactions = [5, 3] ∧
    ((ctrans_new_transaction
        (world0.setTrans 7 { blank with child_transactions := [3] })
        1000 5 7 none 990).world.trans 7).child_transactions ≠ [3, 5] := by
  decide

/-- C6, amended: creating a transaction `c` under a live parent whose child
collection is `L` makes the parent's child collection `c` followed by `L`:
one entry is added, at the front, every entry of `L` is retained in the same
order one position further, and no other field of the parent changes, in
particular not its resource collection nor its pending exception. -/
theorem new_transaction_prepends_child (w : World) (stackTop : Int) (c parent : gpointer)
    (sDebug : Option String) (p2Stk : Int) (hc : c ≠ 0) (hp : parent ≠ 0)
    (hpc : parent ≠ c) (hstk : 0 ≤ to_gint (stackTop - p2Stk)) :
    ∃ w1, ctrans_new_transaction w stackTop c parent sDebug p2Stk = .ret TRANS_START w1 ∧
      (w1.trans parent).child_transactions = c :: (w.trans parent).child_transactions ∧
      (∀ i, (w1.trans parent).child_transactions[i + 1]? =
        (w.trans parent).child_transactions[i]?) ∧
      (w1.trans parent).allocated_memory = (w.trans parent).allocated_memory ∧
      (w1.trans parent).raisedException = (w.trans parent).raisedException ∧
      w1.trans parent =
        { w.trans parent with
          child_transactions := c :: (w.trans parent).child_transactions } := by
  unfold ctrans_new_transaction
  rw [backup_Stack_eq w stackTop c p2Stk hstk]
  cases sDebug <;>
    simp [hc, hp, hpc, Flow.bind, ctrans_new_transaction_resume, TRANS_START, TRANS_STOP,
      EXCEPTION_CAPTURED, World.setTrans, g_list_prepend]

theorem new_transaction_prepends_child_witness :
    ((5 : gpointer) ≠ 0 ∧ (7 : gpointer) ≠ 0 ∧ (7 : gpointer) ≠ 5 ∧
      0 ≤ to_gint (1000 - 990)) ∧
    ∃ w1, ctrans_new_transaction (world0.setTrans 7 { blank with child_transactions := [3] })
        1000 5 7 none 990 = .ret TRANS_START w1 ∧
      (w1.trans 7).child_transactions =
        5 :: ((world0.setTrans 7 { blank with child_transactions := [3] }).trans
          7).child_transactions ∧
      (∀ i, (w1.trans 7).child_transactions[i + 1]? =
        ((world0.setTrans 7 { blank with child_transactions := [3] }).trans
          7).child_transactions[i]?) ∧
      (w1.trans 7).allocated_memory =
        ((world0.setTrans 7 { blank with child_transactions := [3] }).trans
          7).allocated_memory ∧
      (w1.trans 7).raisedException =
        ((world0.setTrans 7 { blank with child_transactions := [3] }).trans
          7).raisedException ∧
      w1.trans 7 =
        { (world0.setTrans 7 { blank with child_transactions := [3] }).trans 7 with
          child_transactions :=
            5 :: ((world0.setTrans 7 { blank with child_transactions := [3] }).trans
              7).child_transactions } :=
  ⟨⟨by decide, by decide, by decide, by decide⟩,
    new_transaction_prepends_child (world0.setTrans 7 { blank with child_transactions := [3] })
      1000 5 7 none 990 (by decide) (by decide) (by decide) (by decide)⟩

/-- C7: when the allocation fails and `bRaiseException` is `FALSE`,
`ctrans_try_malloc` returns `NULL` to its caller and the state of the process
is the one before the call: no jump, no pending exception set, nothing
appended to `allocated_memory`. -/
theorem soft_failure_returns_null (w : World) (p : gpointer) (n_bytes : Nat)
    (answer : gpointer) (sp : Int) (hfail : g_try_malloc n_bytes answer = 0) :
    ctrans_try_malloc w p n_bytes false answer sp = .ret 0 w := by
  simp [ctrans_try_malloc, hfail]

theorem soft_failure_returns_null_witness :
    g_try_malloc 8 0 = 0 ∧ ctrans_try_malloc world0 5 8 false 0 1000 = .ret 0 world0 :=
  ⟨by decide, soft_failure_returns_null world0 5 8 0 1000 (by decide)⟩

/-- C8: when the allocation fails and `bRaiseException` is `TRUE`,
`ctrans_try_malloc` does not return: from every stack position it leaves
through `longjmp` with `EXCEPTION_CAPTURED`, the transaction then holds the
record built by `ctrans_raise_sender_exception` with category 1 and the
description of the failed allocation, `allocated_memory` is as before the
call, and at the creation point `FUN_EXC` is called. -/
theorem hard_failure_raises (w : World) (p : gpointer) (n_bytes : Nat)
    (answer : gpointer) (sp : Int) (hfail : g_try_malloc n_bytes answer = 0) :
    ∃ wj, ctrans_try_malloc w p n_bytes true answer sp = .longjmp EXCEPTION_CAPTURED wj ∧
      (wj.trans p).allocated_memory = (w.trans p).allocated_memory ∧
      ((wj.trans p).raisedException.map fun e => e.parent.type) = some 1 ∧
      ((wj.trans p).raisedException.map fun e => e.parent.description_i18n) =
        some "g_try_malloc failed @ ctrans_try_malloc" ∧
      ((wj.trans p).raisedException.map fun e => e.solution_i18n) = some none ∧
      wj.trace = w.trace ∧
      ∃ wf, creation_point wj p EXCEPTION_CAPTURED = .ret () wf ∧
        handlers wf.trace = handlers w.trace ++ [.FUN_EXC] := by
  simp [ctrans_try_malloc, hfail, ctrans_raise_sender_exception, raise_exception_eq,
    Flow.bind, raised, creation_point_exc, NEWTRANSACTION_free, handlers]

theorem hard_failure_raises_witness :
    g_try_malloc 0 11 = 0 ∧
    ∃ wj, ctrans_try_malloc world0 5 0 true 11 1000 = .longjmp EXCEPTION_CAPTURED wj ∧
      (wj.trans 5).allocated_memory = (world0.trans 5).allocated_memory ∧
      ((wj.trans 5).raisedException.map fun e => e.parent.type) = some 1 ∧
      ((wj.trans 5).raisedException.map fun e => e.parent.description_i18n) =
        some "g_try_malloc failed @ ctrans_try_malloc" ∧
      ((wj.trans 5).raisedException.map fun e => e.solution_i18n) = some none ∧
      wj.trace = world0.trace ∧
      ∃ wf, creation_point wj 5 EXCEPTION_CAPTURED = .ret () wf ∧
        handlers wf.trace = handlers world0.trace ++ [.FUN_EXC] :=
  ⟨by decide, hard_failure_raises world0 5 0 11 1000 (by decide)⟩

/-- C9: when the allocation succeeds with the handle `h`, `ctrans_try_malloc`
returns `h`, for either value of `bRaiseException`, and `allocated_memory`
becomes the list it was with `h` appended: one entry longer, every former
entry at its former position, `h` last; nothing else changes. -/
theorem success_appends_handle (w : World) (p : gpointer) (n_bytes : Nat) (b : Bool)
    (answer : gpointer) (sp : Int) (h : gpointer)
    (hh : g_try_malloc n_bytes answer = h) (hok : h ≠ 0) :
    ∃ w1, ctrans_try_malloc w p n_bytes b answer sp = .ret h w1 ∧
      (w1.trans p).allocated_memory = (w.trans p).allocated_memory ++ [h] ∧
      (w1.trans p).allocated_memory.length = (w.trans p).allocated_memory.length + 1 ∧
      (∀ i, i < (w.trans p).allocated_memory.length →
        (w1.trans p).allocated_memory[i]? = (w.trans p).allocated_memory[i]?) ∧
      (w1.trans p).allocated_memory.getLast? = some h ∧
      w1.trans p = { w.trans p with allocated_memory := (w.trans p).allocated_memory ++ [h] } ∧
      (∀ q, q ≠ p → w1.trans q = w.trans q) ∧
      w1.trace = w.trace ∧ w1.stack = w.stack := by
  subst hh
  refine ⟨_, try_malloc_success w p n_bytes b answer sp hok, ?_, ?_, ?_, ?_, ?_, ?_, ?_, ?_⟩
  · simp
  · simp
  · intro i hi
    simp [List.getElem?_append_left hi]
  · simp
  · simp
  · intro q hq
    exact grow_trans_other w p q _ _ hq
  · simp
  · simp

theorem success_appends_handle_witness :
    (g_try_malloc 8 12 = 12 ∧ (12 : gpointer) ≠ 0) ∧
    ∃ w1, ctrans_try_malloc (world0.setTrans 5 { blank with allocated_memory := [11] })
        5 8 true 12 1000 = .ret 12 w1 ∧
      (w1.trans 5).allocated_memory =
        ((world0.setTrans 5 { blank with allocated_memory := [11] }).trans
          5).allocated_memory ++ [12] ∧
      (w1.trans 5).allocated_memory.length =
        ((world0.setTrans 5 { blank with allocated_memory := [11] }).trans
          5).allocated_memory.length + 1 ∧
      (∀ i, i < ((world0.setTrans 5 { blank with allocated_memory := [11] }).trans
          5).allocated_memory.length →
        (w1.trans 5).allocated_memory[i]? =
          ((world0.setTrans 5 { blank with allocated_memory := [11] }).trans
            5).allocated_memory[i]?) ∧
      (w1.trans 5).allocated_memory.getLast? = some 12 ∧
      w1.trans 5 =
        { (world0.setTrans 5 { blank with allocated_memory := [11] }).trans 5 with
          allocated_memory :=
            ((world0.setTrans 5 { blank with allocated_memory := [11] }).trans
              5).allocated_memory ++ [12] } ∧
      (∀ q, q ≠ 5 → w1.trans q =
        (world0.setTrans 5 { blank with allocated_memory := [11] }).trans q) ∧
      w1.trace = (world0.setTrans 5 { blank with allocated_memory := [11] }).trace ∧
      w1.stack = (world0.setTrans 5 { blank with allocated_memory := [11] }).stack :=
  ⟨⟨by decide, by decide⟩,
    success_appends_handle (world0.setTrans 5 { blank with allocated_memory := [11] })
      5 8 true 12 1000 12 (by decide) (by decide)⟩

/-- C10: let `n` successful tracked allocations, made at any nesting depth
(between any calls, returns and client code), be followed by a raise, as in
`test1.c`. The abort path then passes to `g_free` the `n` handles acquired:
each of them once and no other block, so none is leaked and none is released
twice; and `FUN_EXC` is called once, with `FUN_STOP` never called. That the
handles are pairwise distinct is the contract of the allocator. -/
theorem abort_releases_what_was_acquired (w : World) (stackTop : Int) (c : gpointer)
    (sDebug : Option String) (p2Stk : Int) (pre post : List Op) (r : Op) (hc : c ≠ 0)
    (hstk : 0 ≤ to_gint (stackTop - p2Stk)) (hpre : ∀ op ∈ pre, op.acquiring = true)
    (hfresh : (acquired pre).Nodup) (hr : r.raising = true) :
    ∃ wf, transaction w stackTop c sDebug p2Stk (pre ++ r :: post) = .ret () wf ∧
      released wf.trace = released w.trace ++ acquired pre ∧
      (released wf.trace).length = (released w.trace).length + (acquired pre).length ∧
      (∀ h ∈ acquired pre,
        (released wf.trace).count h = (released w.trace).count h + 1) ∧
      (∀ h, h ∉ acquired pre →
        (released wf.trace).count h = (released w.trace).count h) ∧
      handlers wf.trace = handlers w.trace ++ [.FUN_START, .FUN_EXC] := by
  obtain ⟨wf, e, hwf, htrace⟩ := transaction_abort_world w stackTop c sDebug p2Stk pre post r
    hc hstk (fun op hop => quiet_of_acquiring op (hpre op hop)) hr
  have hrel : released wf.trace = released w.trace ++ acquired pre := by
    simp [htrace, released]
  refine ⟨wf, hwf, hrel, ?_, ?_, ?_, ?_⟩
  · simp [hrel]
  · intro h hh
    rw [hrel, List.count_append, List.count_eq_one_of_mem hfresh hh]
  · intro h hh
    rw [hrel, List.count_append, List.count_eq_zero_of_not_mem hh, Nat.add_zero]
  · simp [htrace, handlers]

theorem abort_releases_what_was_acquired_witness :
    ((5 : gpointer) ≠ 0 ∧ 0 ≤ to_gint (1000 - 990) ∧
      (∀ op ∈ [Op.call 4, Op.try_malloc 1000 true 11, Op.leave 4, Op.call 4,
          Op.try_malloc 1000 true 12, Op.call 4, Op.try_malloc 1000 true 13, Op.call 4,
          Op.try_malloc 1000 true 14],
        op.acquiring = true) ∧
      (acquired [Op.call 4, Op.try_malloc 1000 true 11, Op.leave 4, Op.call 4,
          Op.try_malloc 1000 true 12, Op.call 4, Op.try_malloc 1000 true 13, Op.call 4,
          Op.try_malloc 1000 true 14]).Nodup ∧
      (Op.raise_recipient .USER "description" "detail" "solution").raising = true) ∧
    ∃ wf, transaction world0 1000 5 (some "Trans1") 990
        ([Op.call 4, Op.try_malloc 1000 true 11, Op.leave 4, Op.call 4,
          Op.try_malloc 1000 true 12, Op.call 4, Op.try_malloc 1000 true 13, Op.call 4,
          Op.try_malloc 1000 true 14] ++
          (Op.raise_recipient .USER "description" "detail" "solution") ::
            [Op.leave 4, Op.leave 4, Op.leave 4]) = .ret () wf ∧
      released wf.trace = released world0.trace ++
        acquired [Op.call 4, Op.try_malloc 1000 true 11, Op.leave 4, Op.call 4,
          Op.try_malloc 1000 true 12, Op.call 4, Op.try_malloc 1000 true 13, Op.call 4,
          Op.try_malloc 1000 true 14] ∧
      (released wf.trace).length = (released world0.trace).length +
        (acquired [Op.call 4, Op.try_malloc 1000 true 11, Op.leave 4, Op.call 4,
          Op.try_malloc 1000 true 12, Op.call 4, Op.try_malloc 1000 true 13, Op.call 4,
          Op.try_malloc 1000 true 14]).length ∧
      (∀ h ∈ acquired [Op.call 4, Op.try_malloc 1000 true 11, Op.leave 4, Op.call 4,
          Op.try_malloc 1000 true 12, Op.call 4, Op.try_malloc 1000 true 13, Op.call 4,
          Op.try_malloc 1000 true 14],
        (released wf.trace).count h = (released world0.trace).count h + 1) ∧
      (∀ h, h ∉ acquired [Op.call 4, Op.try_malloc 1000 true 11, Op.leave 4, Op.call 4,
          Op.try_malloc 1000 true 12, Op.call 4, Op.try_malloc 1000 true 13, Op.call 4,
          Op.try_malloc 1000 true 14] →
        (released wf.trace).count h = (released world0.trace).count h) ∧
      handlers wf.trace = handlers world0.trace ++ [.FUN_START, .FUN_EXC] :=
  ⟨⟨by decide, by decide, by decide, by decide, by decide⟩,
    abort_releases_what_was_acquired world0 1000 5 (some "Trans1") 990
      [Op.call 4, Op.try_malloc 1000 true 11, Op.leave 4, Op.call 4,
          Op.try_malloc 1000 true 12, Op.call 4, Op.try_malloc 1000 true 13, Op.call 4,
          Op.try_malloc 1000 true 14]
      [Op.leave 4, Op.leave 4, Op.leave 4]
      (Op.raise_recipient .USER "description" "detail" "solution")
      (by decide) (by decide) (by decide) (by decide) (by decide)⟩

/-- C11: a loop runs `n` transactions one after another, each acquiring `k`
resources and ending through `ENDTRANSACTION`. Then `FUN_STOP` is called `n`
times and `FUN_EXC` never; the blocks passed to `g_free` are the handles
acquired in the `n` passes, `n * k` in all, so none is left unreleased; and
each of the `n` contexts that tracked them has been deallocated. -/
theorem loop_releases_everything (stackTop p2Stk : Int) (k : Nat) (runs : List Run)
    (w : World) (hstk : 0 ≤ to_gint (stackTop - p2Stk))
    (hruns : ∀ r ∈ runs, r.newTrans ≠ 0 ∧ (∀ op ∈ r.body, op.acquiring = true) ∧
      (acquired r.body).length = k) :
    ∃ wf, run_main_loop stackTop p2Stk runs w = .ret () wf ∧
      (handlers wf.trace).count .FUN_STOP = (handlers w.trace).count .FUN_STOP + runs.length ∧
      (handlers wf.trace).count .FUN_EXC = (handlers w.trace).count .FUN_EXC ∧
      released wf.trace = released w.trace ++ acquired_all runs ∧
      (released wf.trace).length = (released w.trace).length + runs.length * k ∧
      deallocated wf.trace = deallocated w.trace ++ runs.map (fun r => r.newTrans) := by
  obtain ⟨wf, hwf, hrel, -, hstop, hexc, hde⟩ := run_main_loop_world stackTop p2Stk runs w hstk
    (fun r hr => ⟨(hruns r hr).1, fun op hop => quiet_of_acquiring op ((hruns r hr).2.1 op hop)⟩)
  refine ⟨wf, hwf, hstop, hexc, hrel, ?_, hde⟩
  rw [hrel, List.length_append, acquired_all_length k runs (fun r hr => (hruns r hr).2.2)]

theorem loop_releases_everything_witness :
    (0 ≤ to_gint (1000 - 990) ∧
      ∀ r ∈ two_runs, r.newTrans ≠ 0 ∧ (∀ op ∈ r.body, op.acquiring = true) ∧
        (acquired r.body).length = 2) ∧
    ∃ wf, run_main_loop 1000 990 two_runs world0 = .ret () wf ∧
      (handlers wf.trace).count .FUN_STOP =
        (handlers world0.trace).count .FUN_STOP + two_runs.length ∧
      (handlers wf.trace).count .FUN_EXC = (handlers world0.trace).count .FUN_EXC ∧
      released wf.trace = released world0.trace ++ acquired_all two_runs ∧
      (released wf.trace).length = (released world0.trace).length + two_runs.length * 2 ∧
      deallocated wf.trace = deallocated world0.trace ++ two_runs.map (fun r => r.newTrans) :=
  ⟨⟨by decide, by decide⟩,
    loop_releases_everything 1000 990 2 two_runs world0 (by decide) (by decide)⟩

/-- C12, as stated, fails: in a transaction that acquired the handle 11 and
ended through `ENDTRANSACTION`, 11 has been passed to `g_free` before
`FUN_STOP` is called; and in the transaction of `test1.c` the four handles
have been passed to `g_free` before `FUN_EXC` is called. -/
theorem handler_order_counterexample :
    releasedBeforeHandler .FUN_STOP
        (transaction world0 1000 5 (some "Trans1") 990
          [Op.try_malloc 8 true 11]).world.trace = [11] ∧
      releasedBeforeHandler .FUN_EXC
        (transaction world0 1000 5 (some "Trans1") 990 test1_body).world.trace =
          [11, 12, 13, 14] := by
  constructor
  · rw [transaction_eq _ _ _ _ _ _ (by decide) (by decide)]
    simp [exec, step, ctrans_try_malloc, g_try_malloc, g_list_append, ENDTRANSACTION,
      finish_transaction_eq, Flow.bind, creation_point_stop, Flow.world, NEWTRANSACTION_free,
      started, teardown_events, releasedBeforeHandler]
  · rw [transaction_eq _ _ _ _ _ _ (by decide) (by decide)]
    simp [test1_body, exec, step, ctrans_try_malloc, g_try_malloc, g_list_append,
      ctrans_raise_recipient_exception, raise_exception_eq, Flow.bind, creation_point_exc,
      Flow.world, NEWTRANSACTION_free, raised, started, teardown_events,
      releasedBeforeHandler]

/-- C12, amended: on both termination paths teardown runs before the handler.
A transaction that ends with status `TRANS_STOP` first has its resources
released, then `FUN_STOP` is called, then the context is deallocated; one
that ends with status `EXCEPTION_CAPTURED` first has its resources released,
then `FUN_EXC` is called, then the context is deallocated. When the handler
runs, every handle in the `allocated_memory` it sees has been passed to
`g_free`. -/
theorem teardown_then_handler_then_deallocation (w : World) (stackTop : Int) (c : gpointer)
    (sDebug : Option String) (p2Stk : Int) (body : List Op) (hc : c ≠ 0)
    (hstk : 0 ≤ to_gint (stackTop - p2Stk)) :
    ∃ (wf w3 : World) (before : List Event) (t : Transaction) (H : Handler),
      transaction w stackTop c sDebug p2Stk body = .ret () wf ∧
      ((body_flow (started w stackTop c sDebug p2Stk) c stackTop body =
            .longjmp TRANS_STOP w3 ∧ H = .FUN_STOP) ∨
        (body_flow (started w stackTop c sDebug p2Stk) c stackTop body =
            .longjmp EXCEPTION_CAPTURED w3 ∧ H = .FUN_EXC)) ∧
      wf.trace = before ++
        [.handler H c t, .free_stack_backup c, .free_sDebug c, .free_transaction c] ∧
      released before = released w.trace ++ t.allocated_memory ∧
      handlers before = handlers w.trace ++ [.FUN_START] ∧
      deallocated before = deallocated w.trace := by
  obtain ⟨wf, w3, tags, H, hwf, hcase, htrace, -, -⟩ :=
    resume_body_flow (started w stackTop c sDebug p2Stk) c stackTop body
  refine ⟨wf, w3, w.trace ++ ([.handler .FUN_START c (created w stackTop c sDebug p2Stk)] ++
      tags.map Event.user ++ teardown_events (wf.trans c).allocated_memory),
    wf.trans c, H, ?_, hcase, ?_, ?_, ?_, ?_⟩
  · rw [transaction_eq_resume w stackTop c sDebug p2Stk body hc hstk, hwf]
  · rw [htrace]
    simp [started]
  · simp [released]
  · simp [handlers]
  · simp [deallocated]

theorem teardown_then_handler_then_deallocation_witness :
    ((5 : gpointer) ≠ 0 ∧ 0 ≤ to_gint (1000 - 990)) ∧
    ∃ (wf w3 : World) (before : List Event) (t : Transaction) (H : Handler),
      transaction world0 1000 5 (some "Trans1") 990 test1_body = .ret () wf ∧
      ((body_flow (started world0 1000 5 (some "Trans1") 990) 5 1000 test1_body =
            .longjmp TRANS_STOP w3 ∧ H = .FUN_STOP) ∨
        (body_flow (started world0 1000 5 (some "Trans1") 990) 5 1000 test1_body =
            .longjmp EXCEPTION_CAPTURED w3 ∧ H = .FUN_EXC)) ∧
      wf.trace = before ++
        [.handler H 5 t, .free_stack_backup 5, .free_sDebug 5, .free_transaction 5] ∧
      released before = released world0.trace ++ t.allocated_memory ∧
      handlers before = handlers world0.trace ++ [.FUN_START] ∧
      deallocated before = deallocated world0.trace :=
  ⟨⟨by decide, by decide⟩,
    teardown_then_handler_then_deallocation world0 1000 5 (some "Trans1") 990 test1_body
      (by decide) (by decide)⟩

/-- C13: in every transaction run through `NEWTRANSACTION` ...
`ENDTRANSACTION`, whatever its body, `FUN_START` is called first, before any
code of the body; then the body leaves with exactly one status, and exactly
one further handler is called, once: `FUN_STOP` if and only if the status is
`TRANS_STOP`, `FUN_EXC` if and only if it is `EXCEPTION_CAPTURED`; then
control reaches the code behind `ENDTRANSACTION`, and no handler is called
again. -/
theorem handlers_run_once (w : World) (stackTop : Int) (c : gpointer)
    (sDebug : Option String) (p2Stk : Int) (body : List Op) (hc : c ≠ 0)
    (hstk : 0 ≤ to_gint (stackTop - p2Stk)) :
    ∃ (wf : World) (rest : List Event),
      transaction w stackTop c sDebug p2Stk body = .ret () wf ∧
      wf.trace = w.trace ++
        .handler .FUN_START c (created w stackTop c sDebug p2Stk) :: rest ∧
      (handlers rest = [.FUN_STOP] ∨ handlers rest = [.FUN_EXC]) ∧
      (handlers rest = [.FUN_STOP] ↔
        ∃ w3, body_flow (started w stackTop c sDebug p2Stk) c stackTop body =
          .longjmp TRANS_STOP w3) ∧
      (handlers rest = [.FUN_EXC] ↔
        ∃ w3, body_flow (started w stackTop c sDebug p2Stk) c stackTop body =
          .longjmp EXCEPTION_CAPTURED w3) ∧
      handlers wf.trace = handlers w.trace ++ .FUN_START :: handlers rest := by
  obtain ⟨wf, w3, tags, H, hwf, hcase, htrace, -, -⟩ :=
    resume_body_flow (started w stackTop c sDebug p2Stk) c stackTop body
  refine ⟨wf, tags.map Event.user ++ teardown_events (wf.trans c).allocated_memory ++
      [.handler H c (wf.trans c), .free_stack_backup c, .free_sDebug c, .free_transaction c],
    ?_, ?_, ?_, ?_, ?_, ?_⟩
  · rw [transaction_eq_resume w stackTop c sDebug p2Stk body hc hstk, hwf]
  · rw [htrace]
    simp [started]
  · rcases hcase with ⟨-, hH⟩ | ⟨-, hH⟩ <;> subst hH <;> simp [handlers]
  · rcases hcase with ⟨hb, hH⟩ | ⟨hb, hH⟩ <;> subst hH
    · simp only [handlers_append, handlers_map_user, handlers_teardown_events, handlers,
        List.nil_append, true_iff]
      exact ⟨w3, hb⟩
    · simp only [handlers_append, handlers_map_user, handlers_teardown_events, handlers,
        List.nil_append]
      constructor
      · intro h
        simp at h
      · rintro ⟨w4, h4⟩
        rw [hb] at h4
        simp [TRANS_STOP, EXCEPTION_CAPTURED] at h4
  · rcases hcase with ⟨hb, hH⟩ | ⟨hb, hH⟩ <;> subst hH
    · simp only [handlers_append, handlers_map_user, handlers_teardown_events, handlers,
        List.nil_append]
      constructor
      · intro h
        simp at h
      · rintro ⟨w4, h4⟩
        rw [hb] at h4
        simp [TRANS_STOP, EXCEPTION_CAPTURED] at h4
    · simp only [handlers_append, handlers_map_user, handlers_teardown_events, handlers,
        List.nil_append, true_iff]
      exact ⟨w3, hb⟩
  · rw [htrace]
    simp [started, handlers]

theorem handlers_run_once_witness :
    ((5 : gpointer) ≠ 0 ∧ 0 ≤ to_gint (1000 - 990)) ∧
    ∃ (wf : World) (rest : List Event),
      transaction world0 1000 5 (some "Trans1") 990 test1_body = .ret () wf ∧
      wf.trace = world0.trace ++
        .handler .FUN_START 5 (created world0 1000 5 (some "Trans1") 990) :: rest ∧
      (handlers rest = [.FUN_STOP] ∨ handlers rest = [.FUN_EXC]) ∧
      (handlers rest = [.FUN_STOP] ↔
        ∃ w3, body_flow (started world0 1000 5 (some "Trans1") 990) 5 1000 test1_body =
          .longjmp TRANS_STOP w3) ∧
      (handlers rest = [.FUN_EXC] ↔
        ∃ w3, body_flow (started world0 1000 5 (some "Trans1") 990) 5 1000 test1_body =
          .longjmp EXCEPTION_CAPTURED w3) ∧
      handlers wf.trace = handlers world0.trace ++ .FUN_START :: handlers rest :=
  ⟨⟨by decide, by decide⟩,
    handlers_run_once world0 1000 5 (some "Trans1") 990 test1_body (by decide) (by decide)⟩

/-- C14, as stated, fails: for a parent that recorded the handle 11 and has a
child that recorded the handle 21, `ctrans_free_resources` on the parent
passes 11 to `g_free` and nothing else, so the child is not torn down; and
the parent's `allocated_memory` is `[11]` afterwards, not empty. -/
theorem child_teardown_counterexample :
    released (ctrans_free_resources family 7).trace = [11] ∧
      ((ctrans_free_resources family 7).trans 7).child_transactions = [5] ∧
      ((ctrans_free_resources family 7).trans 5).allocated_memory = [21] ∧
      ((ctrans_free_resources family 7).trans 7).allocated_memory = [11] := by
  decide

/-- C14, amended: for every transaction, with or without children,
`ctrans_free_resources` releases the transaction's own resources: each handle
in its `allocated_memory` is passed to `g_free`, in list order, and the list
is then passed to `g_list_free`; no transaction is written, so the field
`allocated_memory` holds the same list afterwards. -/
theorem teardown_releases_own_resources (w : World) (p : gpointer)
    (h : (w.trans p).allocated_memory ≠ []) :
    (ctrans_free_resources w p).trace =
        w.trace ++ ((w.trans p).allocated_memory.map Event.g_free ++
          [Event.g_list_free (w.trans p).allocated_memory]) ∧
      released (ctrans_free_resources w p).trace =
        released w.trace ++ (w.trans p).allocated_memory ∧
      freedLists (ctrans_free_resources w p).trace =
        freedLists w.trace ++ [(w.trans p).allocated_memory] ∧
      (ctrans_free_resources w p).trans = w.trans := by
  refine ⟨?_, ?_, ?_, ?_⟩
  · simp [teardown_events, h]
  · simp
  · simp [teardown_events, h, freedLists]
  · simp

theorem teardown_releases_own_resources_witness :
    (family.trans 7).allocated_memory ≠ [] ∧
    ((ctrans_free_resources family 7).trace =
        family.trace ++ ((family.trans 7).allocated_memory.map Event.g_free ++
          [Event.g_list_free (family.trans 7).allocated_memory]) ∧
      released (ctrans_free_resources family 7).trace =
        released family.trace ++ (family.trans 7).allocated_memory ∧
      freedLists (ctrans_free_resources family 7).trace =
        freedLists family.trace ++ [(family.trans 7).allocated_memory] ∧
      (ctrans_free_resources family 7).trans = family.trans) :=
  ⟨by decide, teardown_releases_own_resources family 7 (by decide)⟩

/-- C15, as stated, fails: a transaction holds the pending record `pending`;
a further `ctrans_raise_sender_exception` on it is not rejected, it leaves
through `longjmp` with `EXCEPTION_CAPTURED` like any raise, and the pending
record has been replaced by the new one. -/
theorem raise_on_pending_counterexample :
    (∃ wj, ctrans_raise_sender_exception
        (world0.setTrans 5 { blank with raisedException := some pending })
        5 2000001 "second" "detail" 0 = .longjmp EXCEPTION_CAPTURED wj) ∧
      ((ctrans_raise_sender_exception
        (world0.setTrans 5 { blank with raisedException := some pending })
        5 2000001 "second" "detail" 0).world.trans 5).raisedException ≠ some pending := by
  constructor
  · simp only [ctrans_raise_sender_exception, raise_exception_eq]
    exact ⟨_, rfl⟩
  · simp [ctrans_raise_sender_exception, raise_exception_eq, Flow.world, pending]

/-- C15, amended: a raise on a transaction that already has a pending
exception is not rejected. Whatever record is pending, a further
`ctrans_raise_sender_exception` or `ctrans_raise_recipient_exception` leaves
through `longjmp` with `EXCEPTION_CAPTURED`, from every stack position, and
the pending record is then the new one, with the category, description and
solution of the later call. -/
theorem raise_replaces_pending (w : World) (p : gpointer) (e : recipient_exception)
    (type : Nat) (rtype : recipEx_type) (d1 d2 s : String) (sp : Int)
    (hpending : (w.trans p).raisedException = some e) :
    (∃ wj, ctrans_raise_sender_exception w p type d1 d2 sp =
        .longjmp EXCEPTION_CAPTURED wj ∧
      ((wj.trans p).raisedException.map fun x => x.parent.type) = some type ∧
      ((wj.trans p).raisedException.map fun x => x.parent.description_i18n) = some d1 ∧
      ((wj.trans p).raisedException.map fun x => x.solution_i18n) = some none) ∧
    (∃ wj, ctrans_raise_recipient_exception w p rtype d1 d2 s sp =
        .longjmp EXCEPTION_CAPTURED wj ∧
      ((wj.trans p).raisedException.map fun x => x.parent.type) = some rtype.val ∧
      ((wj.trans p).raisedException.map fun x => x.parent.description_i18n) = some d1 ∧
      ((wj.trans p).raisedException.map fun x => x.solution_i18n) = some (some s)) := by
  constructor
  · simp only [ctrans_raise_sender_exception, raise_exception_eq]
    exact ⟨_, rfl, by simp, by simp, by simp⟩
  · simp only [ctrans_raise_recipient_exception, raise_exception_eq]
    exact ⟨_, rfl, by simp, by simp, by simp⟩

theorem raise_replaces_pending_witness :
    ((world0.setTrans 5 { blank with raisedException := some pending }).trans
        5).raisedException = some pending ∧
    ((∃ wj, ctrans_raise_sender_exception
          (world0.setTrans 5 { blank with raisedException := some pending })
          5 2000001 "second" "detail" 0 = .longjmp EXCEPTION_CAPTURED wj ∧
        ((wj.trans 5).raisedException.map fun x => x.parent.type) = some 2000001 ∧
        ((wj.trans 5).raisedException.map fun x => x.parent.description_i18n) =
          some "second" ∧
        ((wj.trans 5).raisedException.map fun x => x.solution_i18n) = some none) ∧
      (∃ wj, ctrans_raise_recipient_exception
          (world0.setTrans 5 { blank with raisedException := some pending })
          5 .ADMIN "second" "detail" "solution" 0 = .longjmp EXCEPTION_CAPTURED wj ∧
        ((wj.trans 5).raisedException.map fun x => x.parent.type) =
          some recipEx_type.ADMIN.val ∧
        ((wj.trans 5).raisedException.map fun x => x.parent.description_i18n) =
          some "second" ∧
        ((wj.trans 5).raisedException.map fun x => x.solution_i18n) =
          some (some "solution"))) :=
  ⟨by decide,
    raise_replaces_pending (world0.setTrans 5 { blank with raisedException := some pending })
      5 pending 2000001 .ADMIN "second" "detail" "solution" 0 (by decide)⟩

/-- C16: let `c` be created under the parent `p`, and let any code run on `c`:
tracked allocations, a raise, the normal end, and then the teardown of `c` at
its creation point. The parent's `allocated_memory` and `raisedException` are
as before, no handler is called with `p`, the blocks passed to `g_free` are
the handles recorded in `c`, which `c` acquired itself, and none of the
handles recorded in `p` is released. That the handles `c` acquires differ
from those `p` holds is the contract of the allocator. -/
theorem child_leaves_parent_alone (w : World) (stackTop : Int) (c p : gpointer)
    (sDebug : Option String) (p2Stk : Int) (body : List Op) (hc : c ≠ 0) (hp : p ≠ 0)
    (hpc : p ≠ c) (hstk : 0 ≤ to_gint (stackTop - p2Stk))
    (hfresh : ∀ h ∈ acquired body, h ∉ (w.trans p).allocated_memory) :
    ∃ wf, child_transaction w stackTop c p sDebug p2Stk body = .ret () wf ∧
      (wf.trans p).allocated_memory = (w.trans p).allocated_memory ∧
      (wf.trans p).raisedException = (w.trans p).raisedException ∧
      handlersOf p wf.trace = handlersOf p w.trace ∧
      released wf.trace = released w.trace ++ (wf.trans c).allocated_memory ∧
      (∀ h ∈ (wf.trans c).allocated_memory, h ∈ acquired body) ∧
      (∀ h ∈ (w.trans p).allocated_memory,
        (released wf.trace).count h = (released w.trace).count h) := by
  have hcp : c ≠ p := fun e => hpc e.symm
  obtain ⟨wf, w3, tags, H, hwf, hcase, htrace, htrans, hother⟩ :=
    resume_body_flow (started_under w stackTop c p sDebug p2Stk) c stackTop body
  have hrel : released wf.trace = released w.trace ++ (wf.trans c).allocated_memory := by
    rw [htrace]
    simp [started_under, released]
  have hown : ∀ h ∈ (wf.trans c).allocated_memory, h ∈ acquired body := by
    obtain ⟨hs, h1, h2⟩ :=
      exec_world_allocated c body stackTop (started_under w stackTop c p sDebug p2Stk)
    have h3 : w3.trans =
        (exec c body stackTop (started_under w stackTop c p sDebug p2Stk)).world.trans := by
      rw [← body_flow_world_trans]
      rcases hcase with ⟨hb, -⟩ | ⟨hb, -⟩ <;> rw [hb] <;> rfl
    have h4 : ((started_under w stackTop c p sDebug p2Stk).trans c).allocated_memory = [] := by
      simp [started_under, setTrans_trans_other _ _ _ _ hcp, created]
    rw [htrans, h3, h1, h4]
    simpa using h2
  refine ⟨wf, ?_, ?_, ?_, ?_, hrel, hown, ?_⟩
  · rw [child_transaction_eq_resume w stackTop c p sDebug p2Stk body hc hp hpc hstk, hwf]
  · rw [hother p hpc]
    simp [started_under]
  · rw [hother p hpc]
    simp [started_under]
  · rw [htrace]
    simp [started_under, handlersOf, hcp]
  · intro h hh
    have hnot : h ∉ (wf.trans c).allocated_memory := fun hin => hfresh h (hown h hin) hh
    rw [hrel, List.count_append, List.count_eq_zero_of_not_mem hnot, Nat.add_zero]

theorem child_leaves_parent_alone_witness :
    ((5 : gpointer) ≠ 0 ∧ (7 : gpointer) ≠ 0 ∧ (7 : gpointer) ≠ 5 ∧
      0 ≤ to_gint (1000 - 990) ∧
      ∀ h ∈ acquired [Op.try_malloc 8 true 31, Op.call 4, Op.try_malloc 8 false 32,
          Op.raise_sender 2000000 "description" "detail"], h ∉ (family.trans 7).allocated_memory) ∧
    ∃ wf, child_transaction family 1000 5 7 (some "child") 990 [Op.try_malloc 8 true 31, Op.call 4, Op.try_malloc 8 false 32,
          Op.raise_sender 2000000 "description" "detail"] = .ret () wf ∧
      (wf.trans 7).allocated_memory = (family.trans 7).allocated_memory ∧
      (wf.trans 7).raisedException = (family.trans 7).raisedException ∧
      handlersOf 7 wf.trace = handlersOf 7 family.trace ∧
      released wf.trace = released family.trace ++ (wf.trans 5).allocated_memory ∧
      (∀ h ∈ (wf.trans 5).allocated_memory, h ∈ acquired [Op.try_malloc 8 true 31, Op.call 4, Op.try_malloc 8 false 32,
          Op.raise_sender 2000000 "description" "detail"]) ∧
      (∀ h ∈ (family.trans 7).allocated_memory,
        (released wf.trace).count h = (released family.trace).count h) :=
  ⟨⟨by decide, by decide, by decide, by decide, by decide⟩,
    child_leaves_parent_alone family 1000 5 7 (some "child") 990 [Op.try_malloc 8 true 31, Op.call 4, Op.try_malloc 8 false 32,
          Op.raise_sender 2000000 "description" "detail"]
      (by decide) (by decide) (by decide) (by decide) (by decide)⟩

/-- C17: the first return of `ctrans_new_transaction` yields `TRANS_START`,
which is 0 and differs from `TRANS_STOP` and `EXCEPTION_CAPTURED`; the new
context then has an empty `allocated_memory` and an empty
`child_transactions`, its `sDebug` is the label passed, the empty string when
none is passed, and nothing has been torn down: the trace is as before. On a
later return of `setjmp` with the value `result`, `ctrans_free_resources`
runs if `result` is `TRANS_STOP` or `EXCEPTION_CAPTURED`, and does not run
otherwise; the function returns `result`. -/
theorem first_return_is_start (w : World) (stackTop : Int) (c parent : gpointer)
    (sDebug : Option String) (p2Stk : Int) (hc : c ≠ 0) (hpc : parent ≠ c)
    (hstk : 0 ≤ to_gint (stackTop - p2Stk)) :
    TRANS_START = 0 ∧ TRANS_START ≠ TRANS_STOP ∧ TRANS_START ≠ EXCEPTION_CAPTURED ∧
    (∃ w1, ctrans_new_transaction w stackTop c parent sDebug p2Stk = .ret TRANS_START w1 ∧
      (w1.trans c).allocated_memory = [] ∧
      (w1.trans c).child_transactions = [] ∧
      (w1.trans c).sDebug = sDebug.getD "" ∧
      w1.trace = w.trace) ∧
    ∀ (w2 : World) (result : Nat),
      ((result = TRANS_STOP ∨ result = EXCEPTION_CAPTURED) →
        ctrans_new_transaction_resume w2 c result =
          .ret result (ctrans_free_resources w2 c)) ∧
      (¬ (result = TRANS_STOP ∨ result = EXCEPTION_CAPTURED) →
        ctrans_new_transaction_resume w2 c result = .ret result w2) := by
  have hcp : c ≠ parent := fun e => hpc e.symm
  refine ⟨rfl, by decide, by decide, ?_, ?_⟩
  · unfold ctrans_new_transaction
    rw [backup_Stack_eq w stackTop c p2Stk hstk]
    by_cases hp : parent = 0 <;> cases sDebug <;>
      simp [hc, hp, hcp, Flow.bind, ctrans_new_transaction_resume, TRANS_START, TRANS_STOP,
        EXCEPTION_CAPTURED, World.setTrans]
  · intro w2 result
    constructor
    · intro h
      simp [ctrans_new_transaction_resume, h]
    · intro h
      simp [ctrans_new_transaction_resume, h]

theorem first_return_is_start_witness :
    ((5 : gpointer) ≠ 0 ∧ (7 : gpointer) ≠ 5 ∧ 0 ≤ to_gint (1000 - 990)) ∧
    (TRANS_START = 0 ∧ TRANS_START ≠ TRANS_STOP ∧ TRANS_START ≠ EXCEPTION_CAPTURED ∧
    (∃ w1, ctrans_new_transaction family 1000 5 7 none 990 = .ret TRANS_START w1 ∧
      (w1.trans 5).allocated_memory = [] ∧
      (w1.trans 5).child_transactions = [] ∧
      (w1.trans 5).sDebug = (none : Option String).getD "" ∧
      w1.trace = family.trace) ∧
    ∀ (w2 : World) (result : Nat),
      ((result = TRANS_STOP ∨ result = EXCEPTION_CAPTURED) →
        ctrans_new_transaction_resume w2 5 result =
          .ret result (ctrans_free_resources w2 5)) ∧
      (¬ (result = TRANS_STOP ∨ result = EXCEPTION_CAPTURED) →
        ctrans_new_transaction_resume w2 5 result = .ret result w2)) :=
  ⟨⟨by decide, by decide, by decide⟩,
    first_return_is_start family 1000 5 7 none 990 (by decide) (by decide) (by decide)⟩

/-- C18 at a block that is not zeroed: `g_malloc` hands out, for the context,
a block whose field `raisedException` holds what an earlier use left there.
`ctrans_new_transaction` does not write the field, so the context it returns
has that record pending though nothing was raised, and `FUN_STOP` finds it
there when the transaction ends through `ENDTRANSACTION`. -/
theorem fresh_context_keeps_old_record :
    ((ctrans_new_transaction
        (world0.setTrans 5 { blank with raisedException := some pending })
        1000 5 0 (some "Trans1") 990).world.trans 5).raisedException = some pending ∧
      (seenBy .FUN_STOP
        (transaction (world0.setTrans 5 { blank with raisedException := some pending })
          1000 5 (some "Trans1") 990 [Op.try_malloc 8 true 11]).world.trace).map
        (fun t => t.raisedException) = [some pending] := by
  constructor
  · decide
  · rw [transaction_eq _ _ _ _ _ _ (by decide) (by decide)]
    simp [exec, step, ctrans_try_malloc, g_try_malloc, g_list_append, ENDTRANSACTION,
      finish_transaction_eq, Flow.bind, creation_point_stop, Flow.world, NEWTRANSACTION_free,
      started, created, seenBy]

/-- C19: let `ctrans_backup_Stack` take the backup of the
`n = stack_ptr2Top - p2Stk` words below the top, with `n` not negative and in
the range of an `int`. Then `stack_size` is `n` and `stack_backup[i]` is the
word `stack_ptr2Top[-i]` for every `i < n`, and the stack is not written. In
every later state of the memory in which the three stack fields of the
transaction are as the backup left them, `ctrans_restore_Stack` makes each
word `stack_ptr2Top[-i]`, `i < n`, what it was when the backup was taken, and
writes no other word and no transaction; restoring right after the backup
leaves the stack as it was. -/
theorem backup_restore_round_trip (w : World) (stackTop : Int) (p : gpointer) (p2Stk : Int)
    (h0 : 0 ≤ stackTop - p2Stk) (h1 : stackTop - p2Stk < 2 ^ 31) :
    ∃ w1, ctrans_backup_Stack w stackTop p p2Stk = .ret () w1 ∧
      (w1.trans p).stack_size = (stackTop - p2Stk).toNat ∧
      (w1.trans p).stack_ptr2Top = stackTop ∧
      (∀ i : Nat, (i : Int) < stackTop - p2Stk →
        (w1.trans p).stack_backup[i]? = some (w.stack (stackTop - (i : Int)))) ∧
      w1.stack = w.stack ∧
      (∀ w2 : World,
        (w2.trans p).stack_ptr2Top = (w1.trans p).stack_ptr2Top →
        (w2.trans p).stack_size = (w1.trans p).stack_size →
        (w2.trans p).stack_backup = (w1.trans p).stack_backup →
        (∀ i : Nat, (i : Int) < stackTop - p2Stk →
          (ctrans_restore_Stack w2 p).stack (stackTop - (i : Int)) =
            w.stack (stackTop - (i : Int))) ∧
        (∀ a : Int, a ≤ p2Stk ∨ stackTop < a →
          (ctrans_restore_Stack w2 p).stack a = w2.stack a) ∧
        (ctrans_restore_Stack w2 p).trans = w2.trans) ∧
      (ctrans_restore_Stack w1 p).stack = w.stack := by
  refine ⟨_, backup_Stack_eq_range w stackTop p p2Stk h0 h1, ?_, ?_, ?_, ?_, ?_, ?_⟩
  · simp
  · simp
  · intro i hi
    have hi1 : i < (stackTop - p2Stk).toNat := by omega
    simp [List.getElem?_map, List.getElem?_range hi1]
  · simp
  · intro w2 htop hsize hbackup
    simp only [setTrans_trans_self] at htop hsize hbackup
    refine ⟨?_, ?_, restore_trans w2 p⟩
    · intro i hi
      have hi1 : i < (stackTop - p2Stk).toNat := by omega
      rw [restore_stack, htop, hsize, hbackup]
      rw [if_pos (by omega)]
      have : (stackTop - (stackTop - (i : Int))).toNat = i := by omega
      rw [this, backup_entry _ _ _ _ hi1]
    · intro a ha
      rw [restore_stack, htop, hsize, hbackup]
      rw [if_neg (by omega)]
  · funext a
    rw [restore_stack]
    simp only [setTrans_trans_self, setTrans_stack]
    by_cases ha : stackTop - ((stackTop - p2Stk).toNat : Int) < a ∧ a ≤ stackTop
    · rw [if_pos ha]
      have hi1 : (stackTop - a).toNat < (stackTop - p2Stk).toNat := by omega
      rw [backup_entry _ _ _ _ hi1]
      congr 1
      omega
    · rw [if_neg ha]

theorem backup_restore_round_trip_witness :
    ((0 : Int) ≤ 1000 - 990 ∧ (1000 : Int) - 990 < 2 ^ 31) ∧
    ∃ w1, ctrans_backup_Stack numbered 1000 5 990 = .ret () w1 ∧
      (w1.trans 5).stack_size = ((1000 : Int) - 990).toNat ∧
      (w1.trans 5).stack_ptr2Top = 1000 ∧
      (∀ i : Nat, (i : Int) < 1000 - 990 →
        (w1.trans 5).stack_backup[i]? = some (numbered.stack (1000 - (i : Int)))) ∧
      w1.stack = numbered.stack ∧
      (∀ w2 : World,
        (w2.trans 5).stack_ptr2Top = (w1.trans 5).stack_ptr2Top →
        (w2.trans 5).stack_size = (w1.trans 5).stack_size →
        (w2.trans 5).stack_backup = (w1.trans 5).stack_backup →
        (∀ i : Nat, (i : Int) < 1000 - 990 →
          (ctrans_restore_Stack w2 5).stack (1000 - (i : Int)) =
            numbered.stack (1000 - (i : Int))) ∧
        (∀ a : Int, a ≤ 990 ∨ 1000 < a →
          (ctrans_restore_Stack w2 5).stack a = w2.stack a) ∧
        (ctrans_restore_Stack w2 5).trans = w2.trans) ∧
      (ctrans_restore_Stack w1 5).stack = numbered.stack :=
  ⟨⟨by decide, by decide⟩,
    backup_restore_round_trip numbered 1000 5 990 (by decide) (by decide)⟩

end Claims

end Libctrans
